import Mathlib

/-!
Formal model of the plg-backend wallet / reward service.

The development shallowly embeds the TypeScript sources:
  * `src/models/User.ts`            — `UserStore` (DynamoDB-backed ledger store)
  * `src/services/blockchainService.ts` — `BlockchainService` (ERC20 gateway)
  * `src/controllers/adminController.ts` — `rewardCurrency`
  * `src/controllers/cryptoController.ts` — `rewardTokens`, `linkWallet`
  * `src/controllers/appController.ts` — `loadAndGenerateWallets`
  * `ethers` v5 address utilities (`ethers.utils.isAddress`), including
    Keccak-256 and the EIP-55 checksum, which `BlockchainService.isValidAddress`
    delegates to.

DynamoDB is modelled as a list of user records keyed by `userId`; every
`UpdateCommand` / `PutCommand` / `GetCommand` the code issues becomes an
explicit state transition with the documented conditional-write semantics
(condition failure leaves the store untouched).  `updateCurrencyBalance`
is modelled as a small-step state machine whose atomic steps are exactly the
store round-trips the TypeScript code performs, so that both the sequential
behaviour and arbitrary interleavings / interference can be reasoned about.

JavaScript numbers are modelled as `Rat` (the code only ever adds positive
amounts; no claim depends on float rounding).  Timestamps are opaque strings
supplied as parameters (`new Date().toISOString()` is captured once per call
in the source, and the model mirrors that).
-/

/-! ## JavaScript string primitives -/

/-- Single-quote character, used to build message strings of the source. -/
def apos : String := (Char.ofNat 39).toString

/-- Whitespace recognised by JavaScript `String.prototype.trim` (ASCII part):
space, tab, line feed, carriage return, vertical tab, form feed. -/
def jsWhitespaceChar (c : Char) : Bool :=
  c.toNat == 32 || c.toNat == 9 || c.toNat == 10 || c.toNat == 13 ||
    c.toNat == 11 || c.toNat == 12

/-- List-level version of JavaScript `trim`. -/
def jsTrimList (cs : List Char) : List Char :=
  ((cs.dropWhile jsWhitespaceChar).reverse.dropWhile jsWhitespaceChar).reverse

/-- JavaScript `s.trim()`. -/
def jsTrim (s : String) : String := ⟨jsTrimList s.data⟩

/-- ASCII lower-casing of one character (JavaScript `toLowerCase` on ASCII data). -/
def jsToLowerChar (c : Char) : Char :=
  if 65 ≤ c.toNat && c.toNat ≤ 90 then Char.ofNat (c.toNat + 32) else c

/-- ASCII upper-casing of one character (JavaScript `toUpperCase` on ASCII data). -/
def jsToUpperChar (c : Char) : Char :=
  if 97 ≤ c.toNat && c.toNat ≤ 122 then Char.ofNat (c.toNat - 32) else c

/-- JavaScript `s.toUpperCase()` (ASCII). -/
def jsToUpper (s : String) : String := ⟨s.data.map jsToUpperChar⟩

/-- Decidable prefix test on character lists. -/
def listIsPfxOf (needle hay : List Char) : Bool :=
  match needle, hay with
  | [], _ => true
  | n1 :: ntail, h1 :: htail => n1 == h1 && listIsPfxOf ntail htail
  | _ :: _, [] => false

/-- Decidable substring (contiguous) test on character lists. -/
def listSubOf (needle : List Char) : List Char → Bool
  | [] => listIsPfxOf needle []
  | c :: cs => listIsPfxOf needle (c :: cs) || listSubOf needle cs

/-- JavaScript `hay.includes(needle)`. -/
def strContains (hay needle : String) : Bool := listSubOf needle.data hay.data

/-- Decimal digit test. -/
def isDigitChar (c : Char) : Bool := '0' ≤ c && c ≤ '9'

/-- Hexadecimal digit test (both cases). -/
def isHexDigitChar (c : Char) : Bool :=
  ('0' ≤ c && c ≤ '9') || ('a' ≤ c && c ≤ 'f') || ('A' ≤ c && c ≤ 'F')

/-- Value of a run of decimal digits. -/
def digitsToNat (ds : List Char) : Nat := ds.foldl (fun a c => a * 10 + (c.toNat - 48)) 0

/-! ## JavaScript numeric parsing

`Number(string)` and `parseFloat(string)` are modelled for the decimal
grammar (optional sign, integer part, fraction, exponent).  The exotic
forms (hex / octal / binary literals, `Infinity`) are not modelled: no code
path exercised by the claims feeds them in, and `Infinity` is rejected by
`Number.isFinite` in the source just as `none` is rejected here. -/

/-- Parse an unsigned decimal mantissa `digits [. digits]`; returns the value
and the remaining characters, or `none` when no digit is present. -/
def parseMantissa (cs : List Char) : Option (Rat × List Char) :=
  let ip := cs.takeWhile isDigitChar
  let rest1 := cs.dropWhile isDigitChar
  match rest1 with
  | '.' :: r =>
    let fp := r.takeWhile isDigitChar
    let rest2 := r.dropWhile isDigitChar
    if ip.isEmpty && fp.isEmpty then none
    else some ((digitsToNat ip : Rat) + (digitsToNat fp : Rat) / ((10 : Rat) ^ fp.length), rest2)
  | _ =>
    if ip.isEmpty then none
    else some ((digitsToNat ip : Rat), rest1)

/-- Parse an optional exponent `(e|E) [+|-] digits`; returns the scale factor
and the remaining characters.  When the exponent is malformed the characters
are left in place (relevant for `parseFloat`, which backtracks). -/
def parseExponent (cs : List Char) : Rat × List Char :=
  match cs with
  | 'e' :: r | 'E' :: r =>
    let (sgn, r1) : Int × List Char :=
      match r with
      | '-' :: r2 => (-1, r2)
      | '+' :: r2 => (1, r2)
      | r2 => (1, r2)
    let ds := r1.takeWhile isDigitChar
    let r2 := r1.dropWhile isDigitChar
    if ds.isEmpty then (1, cs)
    else ((10 : Rat) ^ (sgn * (digitsToNat ds : Int)), r2)
  | _ => (1, cs)

/-- JavaScript `Number(s)` for the decimal grammar; `none` models `NaN`. -/
def jsNumberOfString (s : String) : Option Rat :=
  let cs := jsTrimList s.data
  if cs.isEmpty then some 0
  else
    let (sgn, cs1) : Rat × List Char :=
      match cs with
      | '-' :: r => (-1, r)
      | '+' :: r => (1, r)
      | r => (1, r)
    match parseMantissa cs1 with
    | none => none
    | some (m, rest) =>
      let (scale, rest2) := parseExponent rest
      if rest2.isEmpty && rest ≠ rest2 then some (sgn * m * scale)
      else if rest.isEmpty then some (sgn * m)
      else if rest2.isEmpty then some (sgn * m * scale)
      else none

/-- JavaScript `parseFloat(s)`: parses the longest numeric prefix, ignoring
trailing characters; `none` models `NaN`. -/
def jsParseFloat (s : String) : Option Rat :=
  let cs := s.data.dropWhile jsWhitespaceChar
  let (sgn, cs1) : Rat × List Char :=
    match cs with
    | '-' :: r => (-1, r)
    | '+' :: r => (1, r)
    | r => (1, r)
  match parseMantissa cs1 with
  | none => none
  | some (m, rest) =>
    let (scale, _) := parseExponent rest
    some (sgn * m * scale)

/-! ## Keccak-256

Keccak-f[1600] with the original multirate padding byte `0x01` (Ethereum
uses pre-NIST Keccak, not SHA-3).  Lanes are 64-bit values modelled as `Nat`
masked to 64 bits; the state is the usual 5x5 matrix flattened to a list of
25 lanes, index `x + 5 * y`. -/

/-- All-ones 64-bit mask. -/
def u64Mask : Nat := 2 ^ 64 - 1

/-- Rotate a 64-bit lane left by `n`. -/
def rotl64 (x n : Nat) : Nat :=
  ((x <<< n) &&& u64Mask) ||| (x >>> (64 - n))

/-- Lane index for coordinates `(x, y)`. -/
def laneIdx (x y : Nat) : Nat := x + 5 * y

/-- Fetch lane `i` of a state (0 outside the state). -/
def lane (st : List Nat) (i : Nat) : Nat := st.getD i 0

/-- Theta step of Keccak-f. -/
def keccakTheta (st : List Nat) : List Nat :=
  let c := (List.range 5).map (fun x =>
    lane st (laneIdx x 0) ^^^ lane st (laneIdx x 1) ^^^ lane st (laneIdx x 2) ^^^
      lane st (laneIdx x 3) ^^^ lane st (laneIdx x 4))
  let d := (List.range 5).map (fun x =>
    (c.getD ((x + 4) % 5) 0) ^^^ rotl64 (c.getD ((x + 1) % 5) 0) 1)
  (List.range 25).map (fun i => lane st i ^^^ d.getD (i % 5) 0)

/-- Combined rho-and-pi step: entry `t` of the table is the source lane and
rotation amount feeding target lane `t`, precomputing
`B[y][(2x+3y) mod 5] = rotl(A[x][y], r[x][y])`. -/
def rhoPiTable : List (Nat × Nat) :=
  [(0, 0), (6, 44), (12, 43), (18, 21), (24, 14),
   (3, 28), (9, 20), (10, 3), (16, 45), (22, 61),
   (1, 1), (7, 6), (13, 25), (19, 8), (20, 18),
   (4, 27), (5, 36), (11, 10), (17, 15), (23, 56),
   (2, 62), (8, 55), (14, 39), (15, 41), (21, 2)]

/-- Rho-and-pi step of Keccak-f. -/
def keccakRhoPi (st : List Nat) : List Nat :=
  rhoPiTable.map (fun sr => rotl64 (lane st sr.1) sr.2)

/-- Chi step of Keccak-f. -/
def keccakChi (st : List Nat) : List Nat :=
  (List.range 25).map (fun i =>
    let x := i % 5
    let y := i / 5
    lane st i ^^^ ((lane st ((x + 1) % 5 + 5 * y) ^^^ u64Mask) &&& lane st ((x + 2) % 5 + 5 * y)))

/-- Round constants of Keccak-f[1600] (decimal values of the 24 iota
constants 0x0000000000000001, 0x0000000000008082, ..., 0x8000000080008008). -/
def keccakRC : List Nat :=
  [1, 32898, 9223372036854808714,
   9223372039002292224, 32907, 2147483649,
   9223372039002292353, 9223372036854808585, 138,
   136, 2147516425, 2147483658,
   2147516555, 9223372036854775947, 9223372036854808713,
   9223372036854808579, 9223372036854808578, 9223372036854775936,
   32778, 9223372039002259466, 9223372039002292353,
   9223372036854808704, 2147483649, 9223372039002292232]

/-- One round of Keccak-f (theta, rho-pi, chi, iota). -/
def keccakRound (st : List Nat) (rc : Nat) : List Nat :=
  match keccakChi (keccakRhoPi (keccakTheta st)) with
  | [] => []
  | a0 :: rest => (a0 ^^^ rc) :: rest

/-- Full Keccak-f[1600] permutation (24 rounds). -/
def keccakF (st : List Nat) : List Nat := keccakRC.foldl keccakRound st

/-- Multirate padding (pad10*1 with marker byte 0x01) to the 136-byte rate. -/
def keccakPad (msg : List Nat) : List Nat :=
  let padLen := 136 - msg.length % 136
  if padLen == 1 then msg ++ [0x81]
  else msg ++ [0x01] ++ List.replicate (padLen - 2) 0 ++ [0x80]

/-- Little-endian bytes to a lane value. -/
def leBytesToNat (bs : List Nat) : Nat := bs.foldr (fun b acc => b + 256 * acc) 0

/-- The 17 rate lanes of one 136-byte block. -/
def blockLanes (block : List Nat) : List Nat :=
  (List.range 17).map (fun i => leBytesToNat ((block.drop (8 * i)).take 8))

/-- Absorb one padded block into the state. -/
def absorbBlock (st : List Nat) (block : List Nat) : List Nat :=
  keccakF (List.zipWith (fun a b => a ^^^ b) st (blockLanes block ++ List.replicate 8 0))

/-- Little-endian byte expansion of one lane. -/
def natToLeBytes8 (v : Nat) : List Nat := (List.range 8).map (fun j => (v >>> (8 * j)) % 256)

/-- Keccak-256 digest (32 bytes) of a byte sequence. -/
def keccak256 (msg : List Nat) : List Nat :=
  let padded := keccakPad msg
  let nBlocks := padded.length / 136
  let st0 : List Nat := List.replicate 25 0
  let stFinal := (List.range nBlocks).foldl
    (fun st i => absorbBlock st ((padded.drop (136 * i)).take 136)) st0
  ((List.range 4).map (fun i => natToLeBytes8 (lane stFinal i))).flatten

/-! ## ethers v5 address utilities

`BlockchainService.isValidAddress` is `ethers.utils.isAddress`, i.e.
"`getAddress(address)` does not throw".  `getAddress` (from
`@ethersproject/address`) accepts three shapes:
  * `(0x)?` + 40 hex characters — the `0x` prefix is OPTIONAL in the regex —
    where a mixed-case string must additionally satisfy the EIP-55 checksum;
  * an ICAP address `XE` + 2 check digits + 30-31 base-36 characters with a
    valid IBAN mod-97 checksum whose decoded value fits in 160 bits;
  * everything else throws. -/

/-- Bytes of the EIP-55 checksummed form `0x...` of an all-known-case hex
address (`getChecksumAddress` of ethers): hash the lower-cased 40 hex
characters as ASCII and upper-case every hex digit whose corresponding
digest nibble is at least 8. -/
def getChecksumChars (addr : List Char) : List Char :=
  match addr with
  | '0' :: 'x' :: hexPart =>
    let lower := hexPart.map jsToLowerChar
    let hashed := keccak256 (lower.map Char.toNat)
    let nibbles := hashed.flatMap (fun b => [b / 16, b % 16])
    '0' :: 'x' :: List.zipWith (fun c n => if 8 ≤ n then jsToUpperChar c else c) lower nibbles
  | cs => cs

/-- Test for the regex `^(0x)?[0-9a-fA-F]{40}$` of `getAddress`. -/
def hex40OptPrefix (cs : List Char) : Bool :=
  match cs with
  | '0' :: 'x' :: rest => rest.length == 40 && rest.all isHexDigitChar
  | _ => cs.length == 40 && cs.all isHexDigitChar

/-- Test for the regex `([A-F].*[a-f])|([a-f].*[A-F])` of `getAddress`:
the string mixes upper- and lower-case hex letters (in either order). -/
def hasMixedHexCase (cs : List Char) : Bool :=
  let isUp := fun c => 'A' ≤ c && c ≤ 'F'
  let isLo := fun c => 'a' ≤ c && c ≤ 'f'
  (cs.dropWhile (fun c => !isUp c)).any isLo || (cs.dropWhile (fun c => !isLo c)).any isUp

/-- Test for the ICAP regex `^XE[0-9]{2}[0-9A-Za-z]{30,31}$`. -/
def icapShape (cs : List Char) : Bool :=
  match cs with
  | 'X' :: 'E' :: d1 :: d2 :: rest =>
    isDigitChar d1 && isDigitChar d2 &&
      (rest.length == 30 || rest.length == 31) && rest.all (fun c => c.isAlphanum)
  | _ => false

/-- Base-36 digit value of an alphanumeric character (after upper-casing). -/
def base36Val (c : Char) : Nat :=
  let u := jsToUpperChar c
  if isDigitChar u then u.toNat - 48 else u.toNat - 55

/-- IBAN mod-97 checksum of an ICAP address, as the two check digits
(`ibanChecksum` of ethers: move the first four characters to the end,
substitute `00` for the check digits, expand letters to two-digit values,
and reduce the resulting decimal number mod 97). -/
def ibanChecksumDigits (cs : List Char) : List Char :=
  let up := cs.map jsToUpperChar
  let rearranged := up.drop 4 ++ up.take 2 ++ ['0', '0']
  let n := rearranged.foldl (fun acc c =>
    let v := base36Val c
    if v < 10 then acc * 10 + v else acc * 100 + v) 0
  let checksum := 98 - n % 97
  if checksum < 10 then ['0', Char.ofNat (48 + checksum)]
  else [Char.ofNat (48 + checksum / 10), Char.ofNat (48 + checksum % 10)]

/-- Value of the base-36 payload of an ICAP address (`parseInt(s, 36)`). -/
def base36Value (cs : List Char) : Nat :=
  cs.foldl (fun acc c => acc * 36 + base36Val c) 0

/-- Embedding of `ethers.utils.isAddress` (v5): true iff `getAddress` does
not throw.  On the hex shapes the only throw is the EIP-55 check on
mixed-case input; on the ICAP shape the throws are a bad IBAN checksum or a
decoded value that does not fit in 40 hex digits. -/
def ethersIsAddress (s : String) : Bool :=
  let cs := s.data
  if hex40OptPrefix cs then
    let addr := match cs with
      | '0' :: 'x' :: _ => cs
      | _ => '0' :: 'x' :: cs
    !(hasMixedHexCase addr && getChecksumChars addr ≠ addr)
  else if icapShape cs then
    (cs.drop 2).take 2 == ibanChecksumDigits cs && base36Value (cs.drop 4) < 16 ^ 40
  else false

/-! ## UserStore (`src/models/User.ts`)

The DynamoDB table has one item per `userId` (the partition key); the item
is the `User` record.  The table is modelled as a list of records, point
lookup matching on the `userId` field.  `amountToAdd` and the stored
balances are `Rat` (JavaScript numbers). -/

/-- Persisted user record (interface `User` of `src/models/User.ts`).
`currencyMap` is optional: legacy records may lack the container. -/
structure User where
  userId : String
  walletAddress : String
  currencyMap : Option (List (String × Rat))
  createdAt : Option String
  updatedAt : Option String
deriving DecidableEq, Repr

/-- The DynamoDB table: at most one record per `userId`. -/
abbrev Store := List User

/-- GetCommand on key `userId`. -/
def getItem (s : Store) (userId : String) : Option User :=
  s.find? (fun u => u.userId == userId)

/-- PutCommand: full overwrite of the item with key `u.userId` (insert when
absent). -/
def putItem (s : Store) (u : User) : Store :=
  match s with
  | [] => [u]
  | v :: rest => if v.userId == u.userId then u :: rest else v :: putItem rest u

/-- Lookup in a currency map (nested attribute access). -/
def mapGet : List (String × Rat) → String → Option Rat
  | [], _ => none
  | (k1, v1) :: rest, k => if k1 == k then some v1 else mapGet rest k

/-- DynamoDB `ADD currencyMap.#currency :amount`: add to the nested number,
treating a missing key as 0 (the native atomic nested-path increment the
spec assumes of the store). -/
def mapAdd : List (String × Rat) → String → Rat → List (String × Rat)
  | [], k, v => [(k, v)]
  | (k1, v1) :: rest, k, v =>
    if k1 == k then (k1, v1 + v) :: rest else (k1, v1) :: mapAdd rest k v

/-- Balance of one currency on a record (`none` when the container or the
key is absent). -/
def userBalance (u : User) (k : String) : Option Rat :=
  match u.currencyMap with
  | none => none
  | some m => mapGet m k

/-- Outcome of a DynamoDB update round-trip that can fail server-side. -/
inductive DbErr where
  /-- ConditionalCheckFailedException: the ConditionExpression was false;
  nothing was written. -/
  | condFail
  /-- ValidationException: the document path `currencyMap.#currency` does
  not exist (update unconditioned on the map while the map is absent);
  nothing was written. -/
  | pathInvalid
deriving DecidableEq, Repr

namespace UserStore

/-- Utility method `isValidEthereumAddress` of `UserStore`: the regex
`/^0x[a-fA-F0-9]{40}$/`. -/
def isValidEthereumAddress (s : String) : Bool :=
  match s.data with
  | '0' :: 'x' :: rest => rest.length == 40 && rest.all isHexDigitChar
  | _ => false

/-- Failure of `linkWallet`. -/
inductive LinkErr where
  /-- Thrown message: Invalid Ethereum wallet address. -/
  | invalidAddress
deriving DecidableEq, Repr

/-- `UserStore.linkWallet(userId, walletAddress)`: validate the address,
then PutCommand a fresh record with `createdAt = updatedAt = timestamp`.
A put is a full overwrite of the item: any previous `currencyMap` is gone. -/
def linkWallet (s : Store) (userId walletAddress ts : String) :
    Except LinkErr (User × Store) :=
  if isValidEthereumAddress walletAddress then
    let u : User := { userId := userId, walletAddress := walletAddress,
                      currencyMap := none, createdAt := some ts, updatedAt := some ts }
    .ok (u, putItem s u)
  else .error .invalidAddress

/-- UpdateCommand `ADD currencyMap.#currency :amount SET updatedAt = :timestamp`
with `ReturnValues: ALL_NEW`.  `requireMap = true` is the first attempt
(`ConditionExpression: attribute_exists(userId) AND attribute_exists(currencyMap)`),
`requireMap = false` the retry (`attribute_exists(userId)` only).  A condition
failure or an invalid document path writes nothing. -/
def sendAddUpdate (s : Store) (userId currency : String) (amount : Rat)
    (ts : String) (requireMap : Bool) : Except DbErr (User × Store) :=
  match getItem s userId with
  | none => .error .condFail
  | some u =>
    if requireMap && u.currencyMap.isNone then .error .condFail
    else
      match u.currencyMap with
      | none => .error .pathInvalid
      | some m =>
        let u2 := { u with currencyMap := some (mapAdd m currency amount),
                           updatedAt := some ts }
        .ok (u2, putItem s u2)

/-- UpdateCommand `SET currencyMap = if_not_exists(currencyMap, :emptyMap),
updatedAt = :timestamp` with `ConditionExpression: attribute_exists(userId)`:
the idempotent lazy-heal write.  It installs the empty map only when the
container is still absent; an existing container is left as it is. -/
def sendInitMap (s : Store) (userId ts : String) : Except DbErr Store :=
  match getItem s userId with
  | none => .error .condFail
  | some u =>
    let u2 := { u with currencyMap := some (u.currencyMap.getD []), updatedAt := some ts }
    .ok (putItem s u2)

/-- Errors surfaced by `updateCurrencyBalance` (each tag corresponds to one
`throw new Error(...)` site in the source). -/
inductive UpdateErr where
  /-- Thrown message: Amount to add must be positive. -/
  | amountNotPositive
  /-- Thrown message: Currency symbol cannot be empty. -/
  | currencyEmpty
  /-- Thrown message: User with ID ... not found. -/
  | userNotFound
  /-- Thrown message: User with ID ... could not be updated (potentially
  deleted during operation) — a ConditionalCheckFailedException during the
  heal write or the retry. -/
  | deletedDuringOperation
  /-- Thrown message: Failed to update balance ... after attempting map
  initialization — a non-conditional failure during heal or retry. -/
  | healRetryFailed
  /-- Thrown message: Could not update balance ... — a non-conditional
  failure of the first attempt. -/
  | storeError
deriving DecidableEq, Repr

/-- Result carried by a finished `updateCurrencyBalance` run. -/
inductive UpdateOutcome where
  | ok (u : User)
  | err (e : UpdateErr)
deriving DecidableEq, Repr

/-- Program counter of the `updateCurrencyBalance` state machine.  Each
non-final phase performs at most one store round-trip, matching the atomic
steps of the source:
`validate` — the local argument checks (no store access);
`firstAttempt` — the conditional add (condition: record AND map exist);
`readUser` — the GetCommand issued after a conditional failure;
`healMap` — the idempotent map-initialization write;
`retryUpdate` — the re-issued add (condition: record exists only). -/
inductive OpPhase where
  | validate
  | firstAttempt
  | readUser
  | healMap
  | retryUpdate
  | finished (r : UpdateOutcome)
deriving DecidableEq, Repr

/-- Configuration of one in-flight `updateCurrencyBalance(userId, currency,
amountToAdd)` call; `ts` is the timestamp captured once at entry. -/
structure OpCfg where
  phase : OpPhase
  userId : String
  currency : String
  amountToAdd : Rat
  ts : String
deriving DecidableEq, Repr

/-- Store command labels, for observing which round-trips a run issues. -/
inductive DbCmd where
  | updateAdd (requireMap : Bool)
  | getUser
  | initMap
deriving DecidableEq, Repr

/-- Initial configuration of a call. -/
def initCfg (userId currency : String) (amountToAdd : Rat) (ts : String) : OpCfg :=
  { phase := .validate, userId := userId, currency := currency,
    amountToAdd := amountToAdd, ts := ts }

/-- One atomic step of `updateCurrencyBalance`: the next store round-trip
(or local validation), the store after it, and the command label issued.
The branch structure follows `src/models/User.ts` lines 180-263. -/
def opStep (c : OpCfg) (s : Store) : OpCfg × Store × Option DbCmd :=
  match c.phase with
  | .validate =>
    if c.amountToAdd ≤ 0 then
      ({ c with phase := .finished (.err .amountNotPositive) }, s, none)
    else if jsTrim c.currency = "" then
      ({ c with phase := .finished (.err .currencyEmpty) }, s, none)
    else
      ({ c with phase := .firstAttempt }, s, none)
  | .firstAttempt =>
    match sendAddUpdate s c.userId c.currency c.amountToAdd c.ts true with
    | .ok (u, s2) => ({ c with phase := .finished (.ok u) }, s2, some (.updateAdd true))
    | .error .condFail => ({ c with phase := .readUser }, s, some (.updateAdd true))
    | .error .pathInvalid =>
      ({ c with phase := .finished (.err .storeError) }, s, some (.updateAdd true))
  | .readUser =>
    match getItem s c.userId with
    | none => ({ c with phase := .finished (.err .userNotFound) }, s, some .getUser)
    | some _ => ({ c with phase := .healMap }, s, some .getUser)
  | .healMap =>
    match sendInitMap s c.userId c.ts with
    | .ok s2 => ({ c with phase := .retryUpdate }, s2, some .initMap)
    | .error _ =>
      ({ c with phase := .finished (.err .deletedDuringOperation) }, s, some .initMap)
  | .retryUpdate =>
    match sendAddUpdate s c.userId c.currency c.amountToAdd c.ts false with
    | .ok (u, s2) => ({ c with phase := .finished (.ok u) }, s2, some (.updateAdd false))
    | .error .condFail =>
      ({ c with phase := .finished (.err .deletedDuringOperation) }, s, some (.updateAdd false))
    | .error .pathInvalid =>
      ({ c with phase := .finished (.err .healRetryFailed) }, s, some (.updateAdd false))
  | .finished _ => (c, s, none)

/-- Run the machine for at most `n` steps with no interference, collecting
the issued commands. -/
def runSteps : Nat → OpCfg → Store → OpCfg × Store × List DbCmd
  | 0, c, s => (c, s, [])
  | n + 1, c, s =>
    match c.phase with
    | .finished _ => (c, s, [])
    | _ =>
      let r := opStep c s
      let rest := runSteps n r.1 r.2.1
      (rest.1, rest.2.1, r.2.2.toList ++ rest.2.2)

/-- Sequential `UserStore.updateCurrencyBalance(userId, currency,
amountToAdd)` against a quiescent store: the direct transcription of
`src/models/User.ts` lines 180-263 (validation; first conditional attempt;
on conditional failure re-read, heal, retry).  Returns the thrown error or
the `ALL_NEW` record, the store afterwards, and the store commands issued.
The theorem `updateCurrencyBalance_eq_runSteps` identifies this with the
step-machine semantics used for the concurrency results. -/
def updateCurrencyBalance (s : Store) (userId currency : String)
    (amountToAdd : Rat) (ts : String) : UpdateOutcome × Store × List DbCmd :=
  if amountToAdd ≤ 0 then (.err .amountNotPositive, s, [])
  else if jsTrim currency = "" then (.err .currencyEmpty, s, [])
  else
    match sendAddUpdate s userId currency amountToAdd ts true with
    | .ok (u, s2) => (.ok u, s2, [.updateAdd true])
    | .error .pathInvalid => (.err .storeError, s, [.updateAdd true])
    | .error .condFail =>
      match getItem s userId with
      | none => (.err .userNotFound, s, [.updateAdd true, .getUser])
      | some _ =>
        match sendInitMap s userId ts with
        | .error _ =>
          (.err .deletedDuringOperation, s, [.updateAdd true, .getUser, .initMap])
        | .ok s2 =>
          match sendAddUpdate s2 userId currency amountToAdd ts false with
          | .ok (u, s3) =>
            (.ok u, s3, [.updateAdd true, .getUser, .initMap, .updateAdd false])
          | .error .condFail =>
            (.err .deletedDuringOperation, s2,
             [.updateAdd true, .getUser, .initMap, .updateAdd false])
          | .error .pathInvalid =>
            (.err .healRetryFailed, s2,
             [.updateAdd true, .getUser, .initMap, .updateAdd false])

end UserStore

/-! ## Interleaving and interference semantics for `updateCurrencyBalance`

`PairCfg` runs two concurrent calls against the shared store, one atomic
store round-trip at a time (the store serializes conditional writes, which
is the only synchronization point the design relies on).  `runWithEnv` runs
a single call under arbitrary environment interference: between any two of
its steps the environment may replace the store wholesale. -/

namespace UserStore

/-- Joint configuration of two concurrent `updateCurrencyBalance` calls and
the shared store.  `initCount` counts the steps that created the
`currencyMap` container (transitions of the store from container-absent to
container-present for the stepping call's user). -/
structure PairCfg where
  opA : OpCfg
  opB : OpCfg
  store : Store
  initCount : Nat
deriving DecidableEq, Repr

/-- Does the record of `userId` currently carry a `currencyMap` container? -/
def hasMapFor (s : Store) (userId : String) : Bool :=
  match getItem s userId with
  | some u => u.currencyMap.isSome
  | none => false

/-- Let one of the two calls (true = A, false = B) perform its next atomic
step. -/
def stepPair (which : Bool) (p : PairCfg) : PairCfg :=
  if which then
    let r := opStep p.opA p.store
    { opA := r.1, opB := p.opB, store := r.2.1,
      initCount := p.initCount +
        (if !hasMapFor p.store p.opA.userId && hasMapFor r.2.1 p.opA.userId then 1 else 0) }
  else
    let r := opStep p.opB p.store
    { opA := p.opA, opB := r.1, store := r.2.1,
      initCount := p.initCount +
        (if !hasMapFor p.store p.opB.userId && hasMapFor r.2.1 p.opB.userId then 1 else 0) }

/-- Run both calls under the schedule `sched` (each entry names which call
steps next; steps of a finished call are no-ops). -/
def runPair (sched : List Bool) (p : PairCfg) : PairCfg :=
  sched.foldl (fun q b => stepPair b q) p

/-- Has a call reached a final phase? -/
def opDone (c : OpCfg) : Bool :=
  match c.phase with
  | .finished _ => true
  | _ => false

/-- Has a call finished successfully? -/
def opOk (c : OpCfg) : Bool :=
  match c.phase with
  | .finished (.ok _) => true
  | _ => false

/-- Log entry for one executed step of a call running under interference. -/
structure OpLogEntry where
  phaseBefore : OpPhase
  phaseAfter : OpPhase
  storeBefore : Store
  storeAfter : Store
deriving DecidableEq, Repr

/-- Run one call under interference.  A `none` move lets the call perform
its next atomic step (logged); a `some sEnv` move lets the environment
replace the store with `sEnv` (any concurrent writer).  Steps taken in a
final phase are not logged (the call has returned). -/
def runWithEnv : List (Option Store) → OpCfg → Store → OpCfg × Store × List OpLogEntry
  | [], c, s => (c, s, [])
  | none :: rest, c, s =>
    match c.phase with
    | .finished _ => runWithEnv rest c s
    | _ =>
      let r := opStep c s
      let k := runWithEnv rest r.1 r.2.1
      (k.1, k.2.1,
        { phaseBefore := c.phase, phaseAfter := r.1.phase,
          storeBefore := s, storeAfter := r.2.1 } :: k.2.2)
  | some sEnv :: rest, c, _s => runWithEnv rest c sEnv

/-- Did this logged step observe the heal write fail (a conditional-check
failure of the map-initialization write)? -/
def healFailedEntry (e : OpLogEntry) : Bool :=
  match e.phaseBefore, e.phaseAfter with
  | .healMap, .finished (.err .deletedDuringOperation) => true
  | _, _ => false

end UserStore

/-! ## adminController (`src/controllers/adminController.ts`) -/

/-- JavaScript request-body value for the `amount` field (a JSON number or
string). -/
inductive JsVal where
  | num (q : Rat)
  | str (s : String)
deriving DecidableEq, Repr

/-- Embedding of `isNumeric` (`src/utils/validation.ts`): numbers are finite
(the model carries no NaN / Infinity values), strings must be non-blank and
convert to a finite number. -/
def isNumeric : JsVal → Bool
  | .num _ => true
  | .str s => jsTrim s != "" && (jsNumberOfString s).isSome

/-- JavaScript `Number(value)` on a body value (only evaluated after
`isNumeric` succeeded, so the `getD` default is unreachable). -/
def jsNumber : JsVal → Rat
  | .num q => q
  | .str s => (jsNumberOfString s).getD 0

/-- HTTP response as the claims observe it: status code, the `status` field,
and the `message` field (absent on responses that carry none). -/
structure HttpResp where
  code : Nat
  statusStr : String
  message : Option String
deriving DecidableEq, Repr

namespace AdminController

/-- Message text of each `UserStore.updateCurrencyBalance` error as thrown
by `src/models/User.ts` (used by the controller, which discriminates errors
by substring of the message). -/
def updateErrMessage (userId currency : String) : UserStore.UpdateErr → String
  | .amountNotPositive => "Amount to add must be positive."
  | .currencyEmpty => "Currency symbol cannot be empty."
  | .userNotFound => "User with ID " ++ userId ++ " not found."
  | .deletedDuringOperation =>
    "User with ID " ++ userId ++ " could not be updated (potentially deleted during operation)."
  | .healRetryFailed =>
    "Failed to update balance for " ++ currency ++ " for user " ++ userId ++
      " after attempting map initialization."
  | .storeError => "Could not update balance for " ++ currency ++ " for user " ++ userId ++ "."

/-- Embedding of `rewardCurrency` (`src/controllers/adminController.ts`).
Returns the response, the store afterwards, and whether
`userStore.updateCurrencyBalance` was invoked at all. -/
def rewardCurrency (s : Store) (userId currency : Option String)
    (amount : Option JsVal) (ts : String) : HttpResp × Store × Bool :=
  match userId, currency, amount with
  | some uid, some cur, some amt =>
    if uid == "" || cur == "" then
      ({ code := 400, statusStr := "error",
         message := some "Missing required fields: userId, currency, and amount." }, s, false)
    else if jsTrim cur == "" then
      ({ code := 400, statusStr := "error",
         message := some "Invalid currency symbol provided." }, s, false)
    else if !isNumeric amt || jsNumber amt ≤ 0 then
      ({ code := 400, statusStr := "error",
         message := some "Amount must be a positive number." }, s, false)
    else
      let amountToAdd := jsNumber amt
      let currencySymbol := jsToUpper (jsTrim cur)
      let r := UserStore.updateCurrencyBalance s uid currencySymbol amountToAdd ts
      match r.1 with
      | .ok _ =>
        -- the source interpolates the amount into this message; number
        -- formatting is not modelled, no claim inspects the success message
        ({ code := 200, statusStr := "success",
           message := some ("Successfully rewarded " ++ currencySymbol ++ " to user " ++ uid ++ ".") },
         r.2.1, true)
      | .err e =>
        let msg := updateErrMessage uid currencySymbol e
        if strContains msg ("User with ID " ++ uid ++ " not found") then
          ({ code := 404, statusStr := "error", message := some msg }, r.2.1, true)
        else if strContains msg "Amount must be positive" ||
            strContains msg "Currency symbol cannot be empty" then
          ({ code := 400, statusStr := "error", message := some msg }, r.2.1, true)
        else
          ({ code := 500, statusStr := "error",
             message := some ("Failed to reward currency for user " ++ uid ++ ".") }, r.2.1, true)
  | _, _, _ =>
    ({ code := 400, statusStr := "error",
       message := some "Missing required fields: userId, currency, and amount." }, s, false)

end AdminController

/-! ## BlockchainService (`src/services/blockchainService.ts`)

The chain is an external collaborator: a `Chain` record answers the RPC
calls the service makes (`getCode`, `balanceOf`, `decimals`, `name`,
`symbol`, `transfer`).  `new ethers.Contract(...)` itself does not throw on
arbitrary strings (an invalid address is treated as a lazily-resolved ENS
name), so contract construction is not a failure point in the model; every
caller validates the address first. -/

/-- Confirmed transaction receipt (hash and block number). -/
structure TxReceipt where
  transactionHash : String
  blockNumber : Nat
deriving DecidableEq, Repr

/-- Failure modes of the on-chain `transfer` call: an ethers
`CALL_EXCEPTION` or any other transport / revert error with its message. -/
inductive TransferFail where
  | callException
  | other (msg : String)
deriving DecidableEq, Repr

/-- Responses of the chain RPC endpoint, per token address. -/
structure Chain where
  getCode : String → String
  balanceOfRes : String → Except Unit Int
  decimalsRes : String → Except Unit Nat
  nameRes : String → Except Unit String
  symbolRes : String → Except Unit String
  transferRes : String → String → Int → Except TransferFail TxReceipt

namespace BlockchainService

/-- Embedding of `ethers.utils.parseUnits(value, decimals)` (v5
`parseFixed`): the string must consist of digits and at most one decimal
point (optionally negative), the fraction (after trailing-zero removal)
must fit in `decimals` digits; result in base units. -/
def parseUnits (value : String) (decimals : Nat) : Option Int :=
  let cs := value.data
  let neg := match cs with
    | '-' :: _ => true
    | _ => false
  let body := if neg then cs.drop 1 else cs
  if body.isEmpty then none
  else if !body.all (fun c => isDigitChar c || c == '.') then none
  else if body == ['.'] then none
  else if 2 ≤ body.countP (fun c => c == '.') then none
  else
    let whole := body.takeWhile (fun c => c != '.')
    let fracRaw := (body.dropWhile (fun c => c != '.')).drop 1
    let frac := (fracRaw.reverse.dropWhile (fun c => c == '0')).reverse
    if decimals < frac.length then none
    else
      let wei : Int := (digitsToNat whole : Int) * ((10 : Int) ^ decimals) +
        (digitsToNat frac : Int) * ((10 : Int) ^ (decimals - frac.length))
      some (if neg then -wei else wei)

/-- `BlockchainService.isValidAddress`: delegates to `ethers.utils.isAddress`. -/
def isValidAddress (address : String) : Bool := ethersIsAddress address

/-- Embedding of `hasAdminSufficientBalance(tokenAddress, amount)`.  The
`Except` error is the thrown message.  Every internal throw is re-wrapped by
the outer catch as `Failed to check admin balance: ...` (the
`CALL_EXCEPTION` arm of the outer catch is unreachable: the only contract
call, `balanceOf`, has its exception replaced by a plain `Error` in the
inner catch).  `decimals()` failure is swallowed with default 18. -/
def hasAdminSufficientBalance (ch : Chain) (tokenAddress amount : String) :
    Except String Bool :=
  if ch.getCode tokenAddress == "0x" then
    .error ("Failed to check admin balance: No contract deployed at address " ++ tokenAddress)
  else
    match ch.balanceOfRes tokenAddress with
    | .error _ =>
      .error "Failed to check admin balance: Token does not implement ERC20 standard properly"
    | .ok balance =>
      let decimals := match ch.decimalsRes tokenAddress with
        | .ok d => d
        | .error _ => 18
      match parseUnits amount decimals with
      | none => .error "Failed to check admin balance: invalid decimal value"
      | some amountInWei => .ok (decide (amountInWei ≤ balance))

/-- Embedding of `transferTokens(tokenAddress, userWalletAddress, amount)`:
decimals (with fallback), unit conversion, the defense-in-depth
re-verification of balance and code presence, then the transfer call and
confirmation wait. -/
def transferTokens (ch : Chain) (tokenAddress userWalletAddress amount : String) :
    Except String TxReceipt :=
  let decimals := match ch.decimalsRes tokenAddress with
    | .ok d => d
    | .error _ => 18
  match parseUnits amount decimals with
  | none => .error "Token transfer failed: invalid decimal value"
  | some amountInWei =>
    match hasAdminSufficientBalance ch tokenAddress amount with
    | .error m => .error ("Token transfer failed: " ++ m)
    | .ok false => .error "Token transfer failed: Insufficient token balance in admin wallet"
    | .ok true =>
      if ch.getCode tokenAddress == "0x" then
        .error ("Token transfer failed: Invalid token contract at " ++ tokenAddress)
      else
        match ch.transferRes tokenAddress userWalletAddress amountInWei with
        | .ok receipt => .ok receipt
        | .error .callException =>
          .error ("Token transfer failed: Contract at " ++ tokenAddress ++
            " doesn" ++ apos ++ "t support the ERC20 standard properly")
        | .error (.other m) => .error ("Token transfer failed: " ++ m)

/-- Token metadata for responses. -/
structure TokenInfo where
  name : String
  symbol : String
  decimals : Nat
deriving DecidableEq, Repr

/-- Embedding of `getTokenInfo(tokenAddress)`: each optional ERC20 metadata
method independently falls back to a sentinel. -/
def getTokenInfo (ch : Chain) (tokenAddress : String) : TokenInfo :=
  { name := match ch.nameRes tokenAddress with
      | .ok n => n
      | .error _ => "Unknown Token"
    symbol := match ch.symbolRes tokenAddress with
      | .ok sym => sym
      | .error _ => "UNKNOWN"
    decimals := match ch.decimalsRes tokenAddress with
      | .ok d => d
      | .error _ => 18 }

end BlockchainService

/-! ## cryptoController (`src/controllers/cryptoController.ts`) -/

namespace CryptoController

/-- Response of `rewardTokens` as the claims observe it, plus the
instrumentation bit recording whether `transferTokens` was invoked. -/
structure RewardResp where
  code : Nat
  statusStr : String
  message : String
  transferCalled : Bool
deriving DecidableEq, Repr

/-- Substring the controller uses to recognise non-compliant-token errors. -/
def erc20Needle : String := "doesn" ++ apos ++ "t support the ERC20 standard"

/-- General catch-all of `rewardTokens` (lines 105-123): re-classify by
message content into 400 (known client faults) or 500. -/
def outerCatch (m : String) (transferCalled : Bool) : RewardResp :=
  if strContains m erc20Needle || strContains m "No contract deployed" ||
      strContains m "Could not retrieve user" then
    { code := 400, statusStr := "error", message := "Operation failed: " ++ m,
      transferCalled := transferCalled }
  else
    { code := 500, statusStr := "error", message := m, transferCalled := transferCalled }

/-- Embedding of `rewardTokens` (query parameters `token`, `amount`,
`userId`; `none` and the empty string are both falsy). -/
def rewardTokens (ch : Chain) (s : Store) (token amount userId : Option String) :
    RewardResp :=
  match token, amount, userId with
  | some t, some a, some uid =>
    if t == "" || a == "" || uid == "" then
      { code := 400, statusStr := "error",
        message := "Missing required parameters: token, amount, userId",
        transferCalled := false }
    else if !BlockchainService.isValidAddress t then
      { code := 400, statusStr := "error", message := "Invalid token address",
        transferCalled := false }
    else if (jsParseFloat a).isNone || (jsParseFloat a).getD 0 ≤ 0 then
      { code := 400, statusStr := "error", message := "Amount must be a positive number",
        transferCalled := false }
    else
      match getItem s uid with
      | none =>
        { code := 404, statusStr := "error",
          message := "User with ID " ++ uid ++ " not found or wallet not linked",
          transferCalled := false }
      | some user =>
        match BlockchainService.hasAdminSufficientBalance ch t a with
        | .error m =>
          if strContains m erc20Needle || strContains m "No contract deployed" then
            { code := 400, statusStr := "error",
              message := "Invalid token contract at " ++ t ++ ": " ++ m,
              transferCalled := false }
          else outerCatch m false
        | .ok false =>
          { code := 400, statusStr := "error",
            message := "Insufficient tokens in admin wallet", transferCalled := false }
        | .ok true =>
          match BlockchainService.transferTokens ch t user.walletAddress a with
          | .error m => outerCatch m true
          | .ok _receipt =>
            { code := 200, statusStr := "success",
              message := "Tokens successfully transferred", transferCalled := true }
  | _, _, _ =>
    { code := 400, statusStr := "error",
      message := "Missing required parameters: token, amount, userId",
      transferCalled := false }

end CryptoController

/-! ## appController (`src/controllers/appController.ts`)

This is the handler Express serves at `GET /api/app/load`
(`appRoutes.ts` line 95).  `genAddress` stands for
`ethers.Wallet.createRandom().address` — a fresh, well-formed address. -/

namespace AppController

/-- Response of `loadAndGenerateWallets` as the claims observe it: the
status code, the `status` field, the top-level `message` field when the
response carries one, and the returned record. -/
structure LoadResp where
  code : Nat
  statusStr : String
  message : Option String
  data : Option User
deriving DecidableEq, Repr

/-- Embedding of `loadAndGenerateWallets` (lines 217-279 of the source
file).  Returns the response, the store afterwards, and whether a store
write (`linkWallet`) was performed. -/
def loadAndGenerateWallets (s : Store) (userId : Option String)
    (genAddress ts : String) : LoadResp × Store × Bool :=
  match userId with
  | none =>
    ({ code := 400, statusStr := "error",
       message := some "Missing required query parameter: userId", data := none }, s, false)
  | some uid =>
    if uid == "" then
      ({ code := 400, statusStr := "error",
         message := some "Missing required query parameter: userId", data := none }, s, false)
    else
      match getItem s uid with
      | none =>
        ({ code := 404, statusStr := "error",
           message := some ("User with ID " ++ uid ++ " not found."), data := none }, s, false)
      | some user =>
        if user.walletAddress != "" && jsTrim user.walletAddress != "" then
          -- already linked: respond 200 with the record; NO message field
          ({ code := 200, statusStr := "success", message := none, data := some user }, s, false)
        else
          match UserStore.linkWallet s user.userId genAddress ts with
          | .ok (u2, s2) =>
            -- generated: respond 200 with the updated record; NO message field
            ({ code := 200, statusStr := "success", message := none, data := some u2 }, s2, true)
          | .error _ =>
            ({ code := 500, statusStr := "error",
               message := some ("Failed to process request for user " ++ uid ++ "."),
               data := none }, s, false)

end AppController

/-! ## Specification-side definitions used to state the claims -/

/-- Address shape the specification ascribes to `isValidAddress`
(spec section 4.1): `0x` followed by exactly 40 hexadecimal characters,
case-insensitive.  Stated independently of the implementations. -/
def specAddressShape (s : String) : Bool :=
  listIsPfxOf ['0', 'x'] s.data && s.data.length == 42 && (s.data.drop 2).all isHexDigitChar

namespace UserStore

/-- Fresh user of the concurrency scenario of the spec (section 8): a
record with no `currencyBalances` container. -/
def c3Rec : User :=
  { userId := "user1", walletAddress := "0xabc", currencyMap := none,
    createdAt := some "t0", updatedAt := some "t0" }

/-- Two concurrent calls, +10 and +5 of the same currency, against the
fresh user. -/
def c3Init : PairCfg :=
  { opA := initCfg "user1" "GOLD" 10 "tA",
    opB := initCfg "user1" "GOLD" 5 "tB",
    store := [c3Rec], initCount := 0 }

/-- Both one-step successors of a joint configuration. -/
def pairSuccs (p : PairCfg) : List PairCfg := [stepPair true p, stepPair false p]

/-- Add the successors of every listed configuration (deduplicating). -/
def exploreStep (acc : List PairCfg) : List PairCfg :=
  acc.foldl (fun a p => (pairSuccs p).foldl (fun b q => if b.elem q then b else b ++ [q]) a) acc

/-- Iterate `exploreStep`. -/
def explore : Nat → List PairCfg → List PairCfg
  | 0, acc => acc
  | n + 1, acc => explore n (exploreStep acc)

/-- All configurations reachable from `c3Init` (10 plies suffice: each call
finishes within 5 steps). -/
def c3Reach : List PairCfg := explore 10 [c3Init]

/-- Goal predicate of the concurrency claim: both calls succeeded, the
final balance is exactly 15 on the single key, and the container was
installed exactly once. -/
def c3Good (p : PairCfg) : Bool :=
  opOk p.opA && opOk p.opB &&
  (match getItem p.store "user1" with
   | some u => u.currencyMap == some [("GOLD", (15 : Rat))]
   | none => false) &&
  p.initCount == 1

end UserStore

/-! ## Helper lemmas -/

theorem getItem_userId_eq {s : Store} {uid : String} {u : User}
    (h : getItem s uid = some u) : u.userId = uid := by
  have h2 := List.find?_some h
  simpa using h2

theorem getItem_putItem_self (s : Store) (u : User) :
    getItem (putItem s u) u.userId = some u := by
  induction s with
  | nil =>
    show getItem [u] u.userId = some u
    simp [getItem, List.find?]
  | cons v rest ih =>
    by_cases h : (v.userId == u.userId) = true
    · show getItem (if (v.userId == u.userId) = true then u :: rest else _) u.userId = some u
      rw [if_pos h]
      simp [getItem, List.find?]
    · show getItem (if (v.userId == u.userId) = true then _ else v :: putItem rest u) u.userId
        = some u
      rw [if_neg h]
      have hb : (v.userId == u.userId) = false := by simpa using h
      simpa [getItem, List.find?, hb] using ih

theorem mapGet_mapAdd_ne (m : List (String × Rat)) (c k : String) (v : Rat)
    (hk : k ≠ c) : mapGet (mapAdd m c v) k = mapGet m k := by
  induction m with
  | nil =>
    have hc : (c == k) = false := beq_eq_false_iff_ne.mpr (fun h => hk h.symm)
    simp [mapAdd, mapGet, hc]
  | cons p rest ih =>
    obtain ⟨k1, v1⟩ := p
    by_cases h : (k1 == c) = true
    · have hk1 : k1 = c := eq_of_beq h
      have hkk : (k1 == k) = false :=
        beq_eq_false_iff_ne.mpr (by rw [hk1]; exact fun hh => hk hh.symm)
      simp [mapAdd, h, mapGet, hkk]
    · have hb : (k1 == c) = false := by simpa using h
      simp [mapAdd, hb, mapGet, ih]

theorem listIsPfxOf_append (n x t : List Char) (h : listIsPfxOf n x = true) :
    listIsPfxOf n (x ++ t) = true := by
  induction n generalizing x with
  | nil => simp [listIsPfxOf]
  | cons a as ih =>
    cases x with
    | nil => simp [listIsPfxOf] at h
    | cons b bs =>
      simp only [listIsPfxOf, Bool.and_eq_true] at h ⊢
      exact ⟨h.1, ih bs h.2⟩

theorem listSubOf_nil_needle (t : List Char) : listSubOf [] t = true := by
  cases t with
  | nil => rfl
  | cons c cs => simp [listSubOf, listIsPfxOf]

theorem listSubOf_append_right (n h t : List Char) (hs : listSubOf n h = true) :
    listSubOf n (h ++ t) = true := by
  induction h with
  | nil =>
    cases n with
    | nil => exact listSubOf_nil_needle t
    | cons a as => simp [listSubOf, listIsPfxOf] at hs
  | cons c cs ih =>
    simp only [listSubOf, Bool.or_eq_true] at hs
    rcases hs with hp | hsub
    · simp only [List.cons_append, listSubOf, Bool.or_eq_true]
      exact Or.inl (listIsPfxOf_append n (c :: cs) t hp)
    · simp only [List.cons_append, listSubOf, Bool.or_eq_true]
      exact Or.inr (ih hsub)

theorem listSubOf_append_left (n h t : List Char) (hs : listSubOf n t = true) :
    listSubOf n (h ++ t) = true := by
  induction h with
  | nil => simpa using hs
  | cons c cs ih =>
    simp only [List.cons_append, listSubOf, Bool.or_eq_true]
    exact Or.inr ih

theorem strContains_append_right (h t needle : String)
    (hs : strContains h needle = true) : strContains (h ++ t) needle = true := by
  simpa [strContains, String.data_append] using
    listSubOf_append_right needle.data h.data t.data hs

theorem strContains_append_left (h t needle : String)
    (hs : strContains t needle = true) : strContains (h ++ t) needle = true := by
  simpa [strContains, String.data_append] using
    listSubOf_append_left needle.data h.data t.data hs

namespace UserStore

/-- Characterization of a sequential `updateCurrencyBalance` call on an
arbitrary store, given valid arguments: the not-found path, the direct
(container present) path and the heal-then-retry (container absent) path,
with the exact store commands each issues. -/
theorem updateCurrencyBalance_run_spec (s : Store) (uid currency : String)
    (amount : Rat) (ts : String) (hpos : 0 < amount) (hcur : jsTrim currency ≠ "") :
    (getItem s uid = none →
      updateCurrencyBalance s uid currency amount ts =
        (.err .userNotFound, s, [.updateAdd true, .getUser])) ∧
    (∀ u m, getItem s uid = some u → u.currencyMap = some m →
      updateCurrencyBalance s uid currency amount ts =
        (.ok { u with currencyMap := some (mapAdd m currency amount), updatedAt := some ts },
         putItem s { u with currencyMap := some (mapAdd m currency amount), updatedAt := some ts },
         [.updateAdd true])) ∧
    (∀ u, getItem s uid = some u → u.currencyMap = none →
      updateCurrencyBalance s uid currency amount ts =
        (.ok { u with currencyMap := some (mapAdd [] currency amount), updatedAt := some ts },
         putItem (putItem s { u with currencyMap := some [], updatedAt := some ts })
           { u with currencyMap := some (mapAdd [] currency amount), updatedAt := some ts },
         [.updateAdd true, .getUser, .initMap, .updateAdd false])) := by
  have hne : ¬ amount ≤ 0 := not_le.mpr hpos
  refine ⟨?_, ?_, ?_⟩
  · intro h
    simp [updateCurrencyBalance, hne, hcur, sendAddUpdate, h]
  · intro u m hu hm
    simp [updateCurrencyBalance, hne, hcur, sendAddUpdate, hu, hm]
  · intro u hu hm
    have huid : u.userId = uid := getItem_userId_eq hu
    have hval : getItem (putItem s { u with currencyMap := some [], updatedAt := some ts }) uid
        = some { u with currencyMap := some [], updatedAt := some ts } := by
      have h2 := getItem_putItem_self s { u with currencyMap := some [], updatedAt := some ts }
      simpa [huid] using h2
    simp [updateCurrencyBalance, hne, hcur, sendAddUpdate, sendInitMap, hu, hm, hval]

end UserStore

theorem listIsPfxOf_0x_iff (cs : List Char) :
    listIsPfxOf ['0', 'x'] cs = true ↔ ∃ rest, cs = '0' :: 'x' :: rest := by
  cases cs with
  | nil => simp [listIsPfxOf]
  | cons a t =>
    cases t with
    | nil => simp [listIsPfxOf]
    | cons b u =>
      simp only [listIsPfxOf, Bool.and_eq_true, beq_iff_eq]
      constructor
      · rintro ⟨h1, h2, _⟩
        subst h1; subst h2
        exact ⟨u, rfl⟩
      · rintro ⟨rest, h⟩
        injection h with h1 h2
        injection h2 with h2 h3
        subst h1; subst h2
        exact ⟨rfl, rfl, trivial⟩

/-- C1: `updateCurrencyBalance(userId, currency, delta)`, for `delta > 0` and
non-blank `currency`, follows exactly the two-phase protocol of the spec:
a record with the container gets the single conditional add (one `updateAdd`
command conditioned on record-and-container existence) stamping `updatedAt`
and returning the new record; an absent record makes the conditional add
fail, triggers the re-read and surfaces a user-not-found error; a record
without the container goes through conditional-add failure, re-read,
idempotent container initialization and the retried add conditioned only on
record existence.  The final conjunct states the idempotence guard of the
heal write: when the container already exists the `if_not_exists` default
leaves it untouched. -/
theorem UserStore.updateCurrencyBalance_protocol (s : Store) (uid currency : String)
    (amount : Rat) (ts : String) (hpos : 0 < amount) (hcur : jsTrim currency ≠ "") :
    ((getItem s uid = none →
      UserStore.updateCurrencyBalance s uid currency amount ts =
        (.err .userNotFound, s, [.updateAdd true, .getUser])) ∧
    (∀ u m, getItem s uid = some u → u.currencyMap = some m →
      UserStore.updateCurrencyBalance s uid currency amount ts =
        (.ok { u with currencyMap := some (mapAdd m currency amount), updatedAt := some ts },
         putItem s { u with currencyMap := some (mapAdd m currency amount), updatedAt := some ts },
         [.updateAdd true])) ∧
    (∀ u, getItem s uid = some u → u.currencyMap = none →
      UserStore.updateCurrencyBalance s uid currency amount ts =
        (.ok { u with currencyMap := some (mapAdd [] currency amount), updatedAt := some ts },
         putItem (putItem s { u with currencyMap := some [], updatedAt := some ts })
           { u with currencyMap := some (mapAdd [] currency amount), updatedAt := some ts },
         [.updateAdd true, .getUser, .initMap, .updateAdd false]))) ∧
    (∀ u m, getItem s uid = some u → u.currencyMap = some m →
      UserStore.sendInitMap s uid ts =
        .ok (putItem s { u with currencyMap := some m, updatedAt := some ts })) := by
  refine ⟨UserStore.updateCurrencyBalance_run_spec s uid currency amount ts hpos hcur,
    ?_⟩
  intro u m hu hm
  simp [UserStore.sendInitMap, hu, hm]

/-- Witness for C1: a store holding one record without the container goes
through the heal path and lands the credit on the fresh container. -/
theorem UserStore.updateCurrencyBalance_protocol_witness :
    (0 : Rat) < 10 ∧ jsTrim "GOLD" ≠ "" ∧
    UserStore.updateCurrencyBalance
      [{ userId := "user1", walletAddress := "0xabc", currencyMap := none,
         createdAt := some "t0", updatedAt := some "t0" }] "user1" "GOLD" 10 "t1" =
      (.ok { userId := "user1", walletAddress := "0xabc",
             currencyMap := some [("GOLD", 10)], createdAt := some "t0",
             updatedAt := some "t1" },
       [{ userId := "user1", walletAddress := "0xabc",
          currencyMap := some [("GOLD", 10)], createdAt := some "t0",
          updatedAt := some "t1" }],
       [.updateAdd true, .getUser, .initMap, .updateAdd false]) := by
  refine ⟨by decide, by decide, ?_⟩
  have h := ((UserStore.updateCurrencyBalance_protocol
    [{ userId := "user1", walletAddress := "0xabc", currencyMap := none,
       createdAt := some "t0", updatedAt := some "t0" }] "user1" "GOLD" 10 "t1"
    (by decide) (by decide)).1).2.2
    { userId := "user1", walletAddress := "0xabc", currencyMap := none,
      createdAt := some "t0", updatedAt := some "t0" } (by decide) rfl
  simpa [putItem, mapAdd] using h

/-- C2 (amended): `UserStore.isValidEthereumAddress` — the regex validator
of the repository — returns true exactly on strings of the shape `0x`
followed by 40 hexadecimal characters, case-insensitive.
(`BlockchainService.isValidAddress` delegates to `ethers.utils.isAddress`
instead, which does not satisfy this equivalence; see the counterexample.) -/
theorem UserStore.isValidEthereumAddress_iff_shape (s : String) :
    UserStore.isValidEthereumAddress s = true ↔ specAddressShape s = true := by
  unfold UserStore.isValidEthereumAddress specAddressShape
  split
  · rename_i rest heq
    rw [heq]
    simp only [listIsPfxOf, Bool.and_eq_true, beq_iff_eq, beq_self_eq_true,
      List.length_cons, List.all_eq_true, List.drop_succ_cons, List.drop_zero]
    constructor
    · rintro ⟨h1, h2⟩
      exact ⟨⟨⟨trivial, trivial, trivial⟩, by omega⟩, h2⟩
    · rintro ⟨⟨_, h1⟩, h2⟩
      exact ⟨by omega, h2⟩
  · rename_i hno
    constructor
    · intro h
      cases h
    · intro h
      simp only [Bool.and_eq_true] at h
      obtain ⟨⟨hpfx, _⟩, _⟩ := h
      obtain ⟨rest, hrest⟩ := (listIsPfxOf_0x_iff s.data).mp hpfx
      exact absurd hrest (hno rest)

/-- Counterexample for C2: `BlockchainService.isValidAddress` is
`ethers.utils.isAddress`, whose address regex makes the `0x` prefix
optional; the 40-character string `aaa...a` has no `0x` prefix, so the
claimed equivalence calls it invalid, yet the function accepts it. -/
theorem BlockchainService.isValidAddress_shape_counterexample :
    ¬ (BlockchainService.isValidAddress "aaaaaaaaaaaaaaaaaaaaaaaaaaaaaaaaaaaaaaaa" = true ↔
       specAddressShape "aaaaaaaaaaaaaaaaaaaaaaaaaaaaaaaaaaaaaaaa" = true) := by
  decide

/-- C4: invalid arguments never reach the store.  First conjunct: the store
method returns its invalid-argument error with the store untouched and an
empty command trace whenever `delta ≤ 0` or the currency is blank after
trimming.  Second conjunct: the off-chain reward endpoint rejects a
non-positive numeric `amount` with a 400 whose message contains "positive",
without invoking the store method (flag `false`) and without changing the
store. -/
theorem UserStore.updateCurrencyBalance_invalid_args_no_store :
    (∀ (s : Store) (uid currency : String) (amount : Rat) (ts : String),
      amount ≤ 0 ∨ jsTrim currency = "" →
      (UserStore.updateCurrencyBalance s uid currency amount ts).2.1 = s ∧
      (UserStore.updateCurrencyBalance s uid currency amount ts).2.2 = [] ∧
      ((UserStore.updateCurrencyBalance s uid currency amount ts).1 =
          .err .amountNotPositive ∨
       (UserStore.updateCurrencyBalance s uid currency amount ts).1 =
          .err .currencyEmpty)) ∧
    (∀ (s : Store) (uid cur : String) (q : Rat) (ts : String),
      uid ≠ "" → cur ≠ "" → jsTrim cur ≠ "" → q ≤ 0 →
      (AdminController.rewardCurrency s (some uid) (some cur) (some (.num q)) ts).1.code
          = 400 ∧
      strContains
        ((AdminController.rewardCurrency s (some uid) (some cur) (some (.num q)) ts
          ).1.message.getD "") "positive" = true ∧
      (AdminController.rewardCurrency s (some uid) (some cur) (some (.num q)) ts).2.1 = s ∧
      (AdminController.rewardCurrency s (some uid) (some cur) (some (.num q)) ts).2.2
          = false) := by
  constructor
  · intro s uid currency amount ts h
    rcases h with h | h
    · have hrun : UserStore.updateCurrencyBalance s uid currency amount ts =
          (.err .amountNotPositive, s, []) := by
        simp [UserStore.updateCurrencyBalance, h]
      rw [hrun]
      exact ⟨rfl, rfl, Or.inl rfl⟩
    · by_cases h0 : amount ≤ 0
      · have hrun : UserStore.updateCurrencyBalance s uid currency amount ts =
            (.err .amountNotPositive, s, []) := by
          simp [UserStore.updateCurrencyBalance, h0]
        rw [hrun]
        exact ⟨rfl, rfl, Or.inl rfl⟩
      · have hrun : UserStore.updateCurrencyBalance s uid currency amount ts =
            (.err .currencyEmpty, s, []) := by
          simp [UserStore.updateCurrencyBalance, h0, h]
        rw [hrun]
        exact ⟨rfl, rfl, Or.inr rfl⟩
  · intro s uid cur q ts huid hcur0 hcurt hq
    have h1 : (uid == "") = false := beq_eq_false_iff_ne.mpr huid
    have h2 : (cur == "") = false := beq_eq_false_iff_ne.mpr hcur0
    have h3 : (jsTrim cur == "") = false := beq_eq_false_iff_ne.mpr hcurt
    have hrun : AdminController.rewardCurrency s (some uid) (some cur) (some (.num q)) ts =
        ({ code := 400, statusStr := "error",
           message := some "Amount must be a positive number." }, s, false) := by
      simp [AdminController.rewardCurrency, h1, h2, h3, isNumeric, jsNumber, hq]
    rw [hrun]
    refine ⟨rfl, ?_, rfl, rfl⟩
    show strContains "Amount must be a positive number." "positive" = true
    decide

/-- Witness for C4: `delta = 0` at the store level and `amount = 0` at the
endpoint are both rejected without store access. -/
theorem UserStore.updateCurrencyBalance_invalid_args_no_store_witness :
    ((0 : Rat) ≤ 0 ∨ jsTrim "GOLD" = "") ∧
    ((UserStore.updateCurrencyBalance [] "user123" "GOLD" 0 "t1").2.1 = [] ∧
     (UserStore.updateCurrencyBalance [] "user123" "GOLD" 0 "t1").2.2 = [] ∧
     ((UserStore.updateCurrencyBalance [] "user123" "GOLD" 0 "t1").1 =
         .err .amountNotPositive ∨
      (UserStore.updateCurrencyBalance [] "user123" "GOLD" 0 "t1").1 =
         .err .currencyEmpty)) ∧
    ("user123" ≠ "" ∧ "points" ≠ "" ∧ jsTrim "points" ≠ "" ∧ (0 : Rat) ≤ 0) ∧
    ((AdminController.rewardCurrency [] (some "user123") (some "points")
        (some (.num 0)) "t1").1.code = 400 ∧
     strContains ((AdminController.rewardCurrency [] (some "user123") (some "points")
        (some (.num 0)) "t1").1.message.getD "") "positive" = true ∧
     (AdminController.rewardCurrency [] (some "user123") (some "points")
        (some (.num 0)) "t1").2.1 = [] ∧
     (AdminController.rewardCurrency [] (some "user123") (some "points")
        (some (.num 0)) "t1").2.2 = false) :=
  ⟨Or.inl (by decide),
   UserStore.updateCurrencyBalance_invalid_args_no_store.1 [] "user123" "GOLD" 0 "t1"
     (Or.inl (by decide)),
   ⟨by decide, by decide, by decide, by decide⟩,
   UserStore.updateCurrencyBalance_invalid_args_no_store.2 [] "user123" "points" 0 "t1"
     (by decide) (by decide) (by decide) (by decide)⟩

/-- C6: `linkWallet`, for a valid address, writes via a full `PutCommand`
overwrite: the stored record carries the address, has `createdAt` and
`updatedAt` both equal to the call timestamp and has NO `currencyMap`
container — whatever record (including one with balances) was stored before
is replaced wholesale. -/
theorem UserStore.linkWallet_overwrite (s : Store) (uid addr ts : String)
    (hv : UserStore.isValidEthereumAddress addr = true) :
    ∃ u : User,
      UserStore.linkWallet s uid addr ts = .ok (u, putItem s u) ∧
      u.userId = uid ∧ u.walletAddress = addr ∧
      u.createdAt = some ts ∧ u.updatedAt = some ts ∧
      u.currencyMap = none ∧
      getItem (putItem s u) uid = some u := by
  refine ⟨{ userId := uid, walletAddress := addr, currencyMap := none,
            createdAt := some ts, updatedAt := some ts },
    ?_, rfl, rfl, rfl, rfl, rfl, ?_⟩
  · simp [UserStore.linkWallet, hv]
  · exact getItem_putItem_self s _

/-- Witness for C6: relinking a user who has an on-record balance yields a
stored record without the container. -/
theorem UserStore.linkWallet_overwrite_witness :
    UserStore.isValidEthereumAddress "0xaaaaaaaaaaaaaaaaaaaaaaaaaaaaaaaaaaaaaaaa" = true ∧
    ∃ u : User,
      UserStore.linkWallet
        [{ userId := "user123", walletAddress := "0xbbbb",
           currencyMap := some [("GOLD", 5)], createdAt := some "t0",
           updatedAt := some "t0" }]
        "user123" "0xaaaaaaaaaaaaaaaaaaaaaaaaaaaaaaaaaaaaaaaa" "t1" =
        .ok (u, putItem
          [{ userId := "user123", walletAddress := "0xbbbb",
             currencyMap := some [("GOLD", 5)], createdAt := some "t0",
             updatedAt := some "t0" }] u) ∧
      u.userId = "user123" ∧
      u.walletAddress = "0xaaaaaaaaaaaaaaaaaaaaaaaaaaaaaaaaaaaaaaaa" ∧
      u.createdAt = some "t1" ∧ u.updatedAt = some "t1" ∧
      u.currencyMap = none ∧
      getItem (putItem
        [{ userId := "user123", walletAddress := "0xbbbb",
           currencyMap := some [("GOLD", 5)], createdAt := some "t0",
           updatedAt := some "t0" }] u) "user123" = some u :=
  ⟨by decide,
   UserStore.linkWallet_overwrite _ "user123"
     "0xaaaaaaaaaaaaaaaaaaaaaaaaaaaaaaaaaaaaaaaa" "t1" (by decide)⟩

/-- C9 (evidence): for a user whose record already holds a non-blank wallet
address, `GET /load` responds 200 with the record unchanged and performs no
store write — but the response carries NO `message` field at all (the repo
test suite and the swagger documentation expect a top-level message saying
the user "already has a wallet address"). -/
theorem AppController.loadAndGenerateWallets_alreadyLinked :
    AppController.loadAndGenerateWallets
      [{ userId := "user123",
         walletAddress := "0x1234567890abcdef1234567890abcdef12345678",
         currencyMap := none, createdAt := some "t0", updatedAt := some "t0" }]
      (some "user123") "0xcccccccccccccccccccccccccccccccccccccccc" "t1" =
    ({ code := 200, statusStr := "success", message := none,
       data := some ({ userId := "user123",
                       walletAddress := "0x1234567890abcdef1234567890abcdef12345678",
                       currencyMap := none, createdAt := some "t0",
                       updatedAt := some "t0" }) },
     [{ userId := "user123",
        walletAddress := "0x1234567890abcdef1234567890abcdef12345678",
        currencyMap := none, createdAt := some "t0", updatedAt := some "t0" }],
     false) := by
  decide

/-- C10: a successful `updateCurrencyBalance` changes only the targeted
currency entry and `updatedAt`: the returned (and stored) record keeps
`userId`, `walletAddress`, `createdAt` and the balance of every other
currency key, on both the direct and the heal-then-retry path. -/
theorem UserStore.updateCurrencyBalance_frame (s : Store) (uid currency : String)
    (amount : Rat) (ts : String) (u u4 : User) (s4 : Store) (cmds : List UserStore.DbCmd)
    (hu : getItem s uid = some u)
    (hrun : UserStore.updateCurrencyBalance s uid currency amount ts = (.ok u4, s4, cmds)) :
    u4.userId = u.userId ∧ u4.walletAddress = u.walletAddress ∧
    u4.createdAt = u.createdAt ∧ u4.updatedAt = some ts ∧
    (∀ k, k ≠ currency → userBalance u4 k = userBalance u k) ∧
    getItem s4 uid = some u4 := by
  by_cases hpos : 0 < amount
  case neg =>
    exfalso
    have hbad : UserStore.updateCurrencyBalance s uid currency amount ts =
        (.err .amountNotPositive, s, []) := by
      simp [UserStore.updateCurrencyBalance, not_lt.mp hpos]
    rw [hbad] at hrun
    simp at hrun
  case pos =>
  by_cases hcur : jsTrim currency = ""
  case pos =>
    exfalso
    have hbad : UserStore.updateCurrencyBalance s uid currency amount ts =
        (.err .currencyEmpty, s, []) := by
      simp [UserStore.updateCurrencyBalance, not_le.mpr hpos, hcur]
    rw [hbad] at hrun
    simp at hrun
  case neg =>
  obtain ⟨hnone, hdirect, hheal⟩ :=
    UserStore.updateCurrencyBalance_run_spec s uid currency amount ts hpos hcur
  have huid : u.userId = uid := getItem_userId_eq hu
  cases hm : u.currencyMap with
  | some m =>
    rw [hdirect u m hu hm] at hrun
    simp only [Prod.mk.injEq, UserStore.UpdateOutcome.ok.injEq] at hrun
    obtain ⟨h4, hs4, _⟩ := hrun
    subst h4
    subst hs4
    refine ⟨rfl, rfl, rfl, rfl, ?_, ?_⟩
    · intro k hk
      simp [userBalance, hm, mapGet_mapAdd_ne m currency k amount hk]
    · have hg := getItem_putItem_self s
        { u with currencyMap := some (mapAdd m currency amount), updatedAt := some ts }
      simpa [huid] using hg
  | none =>
    rw [hheal u hu hm] at hrun
    simp only [Prod.mk.injEq, UserStore.UpdateOutcome.ok.injEq] at hrun
    obtain ⟨h4, hs4, _⟩ := hrun
    subst h4
    subst hs4
    refine ⟨rfl, rfl, rfl, rfl, ?_, ?_⟩
    · intro k hk
      have hck : (currency == k) = false := beq_eq_false_iff_ne.mpr (fun h => hk h.symm)
      simp [userBalance, hm, mapAdd, mapGet, hck]
    · have hg := getItem_putItem_self
        (putItem s { u with currencyMap := some [], updatedAt := some ts })
        { u with currencyMap := some (mapAdd [] currency amount), updatedAt := some ts }
      simpa [huid] using hg

/-- Witness for C10: a record with wallet, `createdAt` and an unrelated
`SILVER` balance keeps all three across a `GOLD` credit. -/
theorem UserStore.updateCurrencyBalance_frame_witness :
    getItem [{ userId := "user1", walletAddress := "0xabc",
               currencyMap := some [("SILVER", 7)], createdAt := some "t0",
               updatedAt := some "t0" }] "user1" =
      some { userId := "user1", walletAddress := "0xabc",
             currencyMap := some [("SILVER", 7)], createdAt := some "t0",
             updatedAt := some "t0" } ∧
    UserStore.updateCurrencyBalance
      [{ userId := "user1", walletAddress := "0xabc",
         currencyMap := some [("SILVER", 7)], createdAt := some "t0",
         updatedAt := some "t0" }] "user1" "GOLD" 10 "t1" =
      (.ok { userId := "user1", walletAddress := "0xabc",
             currencyMap := some [("SILVER", 7), ("GOLD", 10)],
             createdAt := some "t0", updatedAt := some "t1" },
       [{ userId := "user1", walletAddress := "0xabc",
          currencyMap := some [("SILVER", 7), ("GOLD", 10)],
          createdAt := some "t0", updatedAt := some "t1" }],
       [.updateAdd true]) ∧
    ({ userId := "user1", walletAddress := "0xabc",
       currencyMap := some [("SILVER", 7), ("GOLD", 10)],
       createdAt := some "t0", updatedAt := some "t1" } : User).walletAddress = "0xabc" ∧
    userBalance ({ userId := "user1", walletAddress := "0xabc",
                   currencyMap := some [("SILVER", 7), ("GOLD", 10)],
                   createdAt := some "t0", updatedAt := some "t1" }) "SILVER" = some 7 := by
  refine ⟨by decide, by decide, ?_, by decide⟩
  have h := UserStore.updateCurrencyBalance_frame
    [{ userId := "user1", walletAddress := "0xabc",
       currencyMap := some [("SILVER", 7)], createdAt := some "t0",
       updatedAt := some "t0" }] "user1" "GOLD" 10 "t1"
    { userId := "user1", walletAddress := "0xabc",
      currencyMap := some [("SILVER", 7)], createdAt := some "t0",
      updatedAt := some "t0" }
    { userId := "user1", walletAddress := "0xabc",
      currencyMap := some [("SILVER", 7), ("GOLD", 10)],
      createdAt := some "t0", updatedAt := some "t1" }
    [{ userId := "user1", walletAddress := "0xabc",
       currencyMap := some [("SILVER", 7), ("GOLD", 10)],
       createdAt := some "t0", updatedAt := some "t1" }]
    [.updateAdd true] (by decide) (by decide)
  exact h.2.1

set_option maxRecDepth 100000 in
unseal Rat.add in
theorem UserStore.c3Reach_closed :
    ∀ p ∈ UserStore.c3Reach, ∀ q ∈ UserStore.pairSuccs p, q ∈ UserStore.c3Reach := by
  decide

set_option maxRecDepth 100000 in
unseal Rat.add in
theorem UserStore.c3Reach_final :
    ∀ p ∈ UserStore.c3Reach, UserStore.opDone p.opA = true →
      UserStore.opDone p.opB = true → UserStore.c3Good p = true := by
  decide

set_option maxRecDepth 100000 in
unseal Rat.add in
theorem UserStore.c3Init_mem : UserStore.c3Init ∈ UserStore.c3Reach := by
  decide

theorem UserStore.runPair_mem_c3Reach (sched : List Bool) :
    ∀ p ∈ UserStore.c3Reach, UserStore.runPair sched p ∈ UserStore.c3Reach := by
  induction sched with
  | nil =>
    intro p hp
    simpa [UserStore.runPair] using hp
  | cons b rest ih =>
    intro p hp
    have h1 : UserStore.stepPair b p ∈ UserStore.c3Reach := by
      cases b
      · exact UserStore.c3Reach_closed p hp _ (by simp [UserStore.pairSuccs])
      · exact UserStore.c3Reach_closed p hp _ (by simp [UserStore.pairSuccs])
    have h2 : UserStore.runPair (b :: rest) p = UserStore.runPair rest (UserStore.stepPair b p) := by
      simp [UserStore.runPair]
    rw [h2]
    exact ih _ h1

/-- C3: under EVERY interleaving of the atomic store round-trips of two
concurrent `updateCurrencyBalance` calls (+10 and +5 of the same currency)
against a fresh user without the `currencyMap` container, whenever both
calls have completed they have both succeeded (no double-initialization
error), the single normalized key holds exactly 15, and the container was
installed by exactly one step of the whole execution. -/
theorem UserStore.concurrent_updates_no_lost_writes (sched : List Bool)
    (hA : UserStore.opDone (UserStore.runPair sched UserStore.c3Init).opA = true)
    (hB : UserStore.opDone (UserStore.runPair sched UserStore.c3Init).opB = true) :
    UserStore.opOk (UserStore.runPair sched UserStore.c3Init).opA = true ∧
    UserStore.opOk (UserStore.runPair sched UserStore.c3Init).opB = true ∧
    (getItem (UserStore.runPair sched UserStore.c3Init).store "user1").map User.currencyMap
      = some (some [("GOLD", (15 : Rat))]) ∧
    (UserStore.runPair sched UserStore.c3Init).initCount = 1 := by
  have hmem := UserStore.runPair_mem_c3Reach sched UserStore.c3Init UserStore.c3Init_mem
  have hg := UserStore.c3Reach_final _ hmem hA hB
  unfold UserStore.c3Good at hg
  simp only [Bool.and_eq_true] at hg
  obtain ⟨⟨⟨h1, h2⟩, h3⟩, h4⟩ := hg
  refine ⟨h1, h2, ?_, by simpa using h4⟩
  cases hm : getItem (UserStore.runPair sched UserStore.c3Init).store "user1" with
  | none => rw [hm] at h3; cases h3
  | some u =>
    rw [hm] at h3
    have := eq_of_beq h3
    simp [this]

unseal Rat.add in
/-- Witness for C3: the schedule that runs the +10 call to completion and
then the +5 call reaches completion of both with the claimed final state. -/
theorem UserStore.concurrent_updates_no_lost_writes_witness :
    (UserStore.opDone (UserStore.runPair [true, true, true, true, true, false, false]
        UserStore.c3Init).opA = true ∧
     UserStore.opDone (UserStore.runPair [true, true, true, true, true, false, false]
        UserStore.c3Init).opB = true) ∧
    ((getItem (UserStore.runPair [true, true, true, true, true, false, false]
        UserStore.c3Init).store "user1").map User.currencyMap
      = some (some [("GOLD", (15 : Rat))]) ∧
     (UserStore.runPair [true, true, true, true, true, false, false]
        UserStore.c3Init).initCount = 1) :=
  ⟨⟨by decide, by decide⟩,
   by
    have h := UserStore.concurrent_updates_no_lost_writes
      [true, true, true, true, true, false, false] (by decide) (by decide)
    exact ⟨h.2.2.1, h.2.2.2⟩⟩

theorem UserStore.runWithEnv_finished (moves : List (Option Store)) :
    ∀ (c : UserStore.OpCfg) (s : Store) (r : UserStore.UpdateOutcome),
      c.phase = .finished r →
      (UserStore.runWithEnv moves c s).1 = c ∧ (UserStore.runWithEnv moves c s).2.2 = [] := by
  induction moves with
  | nil =>
    intro c s r h
    exact ⟨rfl, rfl⟩
  | cons m rest ih =>
    intro c s r h
    cases m with
    | none =>
      simp only [UserStore.runWithEnv, h]
      exact ih c s r h
    | some sEnv =>
      simp only [UserStore.runWithEnv]
      exact ih c sEnv r h

theorem UserStore.runWithEnv_retry_noHeal (moves : List (Option Store)) :
    ∀ (c : UserStore.OpCfg) (s : Store), c.phase = .retryUpdate →
      ∀ e ∈ (UserStore.runWithEnv moves c s).2.2, UserStore.healFailedEntry e = false := by
  induction moves with
  | nil =>
    intro c s h e he
    simp [UserStore.runWithEnv] at he
  | cons m rest ih =>
    intro c s h
    cases m with
    | some sEnv =>
      simp only [UserStore.runWithEnv]
      exact ih c sEnv h
    | none =>
      simp only [UserStore.runWithEnv, h]
      cases hsend : UserStore.sendAddUpdate s c.userId c.currency c.amountToAdd c.ts false with
      | ok p =>
        obtain ⟨u, s2⟩ := p
        have hop : UserStore.opStep c s =
            ({ c with phase := .finished (.ok u) }, s2, some (.updateAdd false)) := by
          simp [UserStore.opStep, h, hsend]
        rw [hop]
        intro e he
        simp only [List.mem_cons] at he
        rcases he with he | he
        · subst he
          simp [UserStore.healFailedEntry, h]
        · have hfin := (UserStore.runWithEnv_finished rest
            { c with phase := .finished (.ok u) } s2 (.ok u) rfl).2
          rw [hfin] at he
          cases he
      | error derr =>
        cases derr with
        | condFail =>
          have hop : UserStore.opStep c s =
              ({ c with phase := .finished (.err .deletedDuringOperation) }, s,
               some (.updateAdd false)) := by
            simp [UserStore.opStep, h, hsend]
          rw [hop]
          intro e he
          simp only [List.mem_cons] at he
          rcases he with he | he
          · subst he
            simp [UserStore.healFailedEntry, h]
          · have hfin := (UserStore.runWithEnv_finished rest
              { c with phase := .finished (.err .deletedDuringOperation) } s
              (.err .deletedDuringOperation) rfl).2
            rw [hfin] at he
            cases he
        | pathInvalid =>
          have hop : UserStore.opStep c s =
              ({ c with phase := .finished (.err .healRetryFailed) }, s,
               some (.updateAdd false)) := by
            simp [UserStore.opStep, h, hsend]
          rw [hop]
          intro e he
          simp only [List.mem_cons] at he
          rcases he with he | he
          · subst he
            simp [UserStore.healFailedEntry, h]
          · have hfin := (UserStore.runWithEnv_finished rest
              { c with phase := .finished (.err .healRetryFailed) } s
              (.err .healRetryFailed) rfl).2
            rw [hfin] at he
            cases he

theorem UserStore.runWithEnv_healFail_cases (moves : List (Option Store)) :
    ∀ (c : UserStore.OpCfg) (s : Store),
      (UserStore.runWithEnv moves c s).2.2.any UserStore.healFailedEntry = true →
      (UserStore.runWithEnv moves c s).1.phase = .finished (.err .deletedDuringOperation) ∧
      ∀ e ∈ (UserStore.runWithEnv moves c s).2.2, e.storeAfter = e.storeBefore := by
  induction moves with
  | nil =>
    intro c s hany
    simp [UserStore.runWithEnv] at hany
  | cons m rest ih =>
    intro c s
    cases m with
    | some sEnv =>
      simp only [UserStore.runWithEnv]
      exact ih c sEnv
    | none =>
      cases hph : c.phase with
      | finished r =>
        simp only [UserStore.runWithEnv, hph]
        exact ih c s
      | validate =>
        simp only [UserStore.runWithEnv, hph]
        by_cases h1 : c.amountToAdd ≤ 0
        · have hop : UserStore.opStep c s =
              ({ c with phase := .finished (.err .amountNotPositive) }, s, none) := by
            simp [UserStore.opStep, hph, h1]
          rw [hop]
          intro hany
          exfalso
          have hfin := (UserStore.runWithEnv_finished rest
            { c with phase := .finished (.err .amountNotPositive) } s
            (.err .amountNotPositive) rfl).2
          rw [hfin] at hany
          simp [UserStore.healFailedEntry, hph] at hany
        · by_cases h2 : jsTrim c.currency = ""
          · have hop : UserStore.opStep c s =
                ({ c with phase := .finished (.err .currencyEmpty) }, s, none) := by
              simp [UserStore.opStep, hph, h1, h2]
            rw [hop]
            intro hany
            exfalso
            have hfin := (UserStore.runWithEnv_finished rest
              { c with phase := .finished (.err .currencyEmpty) } s
              (.err .currencyEmpty) rfl).2
            rw [hfin] at hany
            simp [UserStore.healFailedEntry, hph] at hany
          · have hop : UserStore.opStep c s =
                ({ c with phase := .firstAttempt }, s, none) := by
              simp [UserStore.opStep, hph, h1, h2]
            rw [hop]
            intro hany
            have hany2 : (UserStore.runWithEnv rest { c with phase := .firstAttempt } s
                ).2.2.any UserStore.healFailedEntry = true := by
              simp only [List.any_cons, Bool.or_eq_true] at hany
              rcases hany with hbad | hgood
              · simp [UserStore.healFailedEntry, hph] at hbad
              · exact hgood
            obtain ⟨hfinal, hunch⟩ := ih { c with phase := .firstAttempt } s hany2
            refine ⟨hfinal, ?_⟩
            intro e he
            simp only [List.mem_cons] at he
            rcases he with he | he
            · subst he; rfl
            · exact hunch e he
      | firstAttempt =>
        simp only [UserStore.runWithEnv, hph]
        cases hsend : UserStore.sendAddUpdate s c.userId c.currency c.amountToAdd c.ts true with
        | ok p =>
          obtain ⟨u, s2⟩ := p
          have hop : UserStore.opStep c s =
              ({ c with phase := .finished (.ok u) }, s2, some (.updateAdd true)) := by
            simp [UserStore.opStep, hph, hsend]
          rw [hop]
          intro hany
          exfalso
          have hfin := (UserStore.runWithEnv_finished rest
            { c with phase := .finished (.ok u) } s2 (.ok u) rfl).2
          rw [hfin] at hany
          simp [UserStore.healFailedEntry, hph] at hany
        | error derr =>
          cases derr with
          | pathInvalid =>
            have hop : UserStore.opStep c s =
                ({ c with phase := .finished (.err .storeError) }, s,
                 some (.updateAdd true)) := by
              simp [UserStore.opStep, hph, hsend]
            rw [hop]
            intro hany
            exfalso
            have hfin := (UserStore.runWithEnv_finished rest
              { c with phase := .finished (.err .storeError) } s (.err .storeError) rfl).2
            rw [hfin] at hany
            simp [UserStore.healFailedEntry, hph] at hany
          | condFail =>
            have hop : UserStore.opStep c s =
                ({ c with phase := .readUser }, s, some (.updateAdd true)) := by
              simp [UserStore.opStep, hph, hsend]
            rw [hop]
            intro hany
            have hany2 : (UserStore.runWithEnv rest { c with phase := .readUser } s
                ).2.2.any UserStore.healFailedEntry = true := by
              simp only [List.any_cons, Bool.or_eq_true] at hany
              rcases hany with hbad | hgood
              · simp [UserStore.healFailedEntry, hph] at hbad
              · exact hgood
            obtain ⟨hfinal, hunch⟩ := ih { c with phase := .readUser } s hany2
            refine ⟨hfinal, ?_⟩
            intro e he
            simp only [List.mem_cons] at he
            rcases he with he | he
            · subst he; rfl
            · exact hunch e he
      | readUser =>
        simp only [UserStore.runWithEnv, hph]
        cases hget : getItem s c.userId with
        | none =>
          have hop : UserStore.opStep c s =
              ({ c with phase := .finished (.err .userNotFound) }, s, some .getUser) := by
            simp [UserStore.opStep, hph, hget]
          rw [hop]
          intro hany
          exfalso
          have hfin := (UserStore.runWithEnv_finished rest
            { c with phase := .finished (.err .userNotFound) } s (.err .userNotFound) rfl).2
          rw [hfin] at hany
          simp [UserStore.healFailedEntry, hph] at hany
        | some u =>
          have hop : UserStore.opStep c s =
              ({ c with phase := .healMap }, s, some .getUser) := by
            simp [UserStore.opStep, hph, hget]
          rw [hop]
          intro hany
          have hany2 : (UserStore.runWithEnv rest { c with phase := .healMap } s
              ).2.2.any UserStore.healFailedEntry = true := by
            simp only [List.any_cons, Bool.or_eq_true] at hany
            rcases hany with hbad | hgood
            · simp [UserStore.healFailedEntry, hph] at hbad
            · exact hgood
          obtain ⟨hfinal, hunch⟩ := ih { c with phase := .healMap } s hany2
          refine ⟨hfinal, ?_⟩
          intro e he
          simp only [List.mem_cons] at he
          rcases he with he | he
          · subst he; rfl
          · exact hunch e he
      | healMap =>
        simp only [UserStore.runWithEnv, hph]
        cases hinit : UserStore.sendInitMap s c.userId c.ts with
        | ok s2 =>
          have hop : UserStore.opStep c s =
              ({ c with phase := .retryUpdate }, s2, some .initMap) := by
            simp [UserStore.opStep, hph, hinit]
          rw [hop]
          intro hany
          exfalso
          simp only [List.any_cons, Bool.or_eq_true] at hany
          rcases hany with hbad | hgood
          · simp [UserStore.healFailedEntry, hph] at hbad
          · rw [List.any_eq_true] at hgood
            obtain ⟨e, he, hbad⟩ := hgood
            have := UserStore.runWithEnv_retry_noHeal rest
              { c with phase := .retryUpdate } s2 rfl e he
            rw [this] at hbad
            cases hbad
        | error derr =>
          have hop : UserStore.opStep c s =
              ({ c with phase := .finished (.err .deletedDuringOperation) }, s,
               some .initMap) := by
            simp [UserStore.opStep, hph, hinit]
          rw [hop]
          intro _hany
          have hfin := UserStore.runWithEnv_finished rest
            { c with phase := .finished (.err .deletedDuringOperation) } s
            (.err .deletedDuringOperation) rfl
          refine ⟨by rw [hfin.1], ?_⟩
          intro e he
          simp only [List.mem_cons] at he
          rcases he with he | he
          · subst he; rfl
          · rw [hfin.2] at he
            cases he
      | retryUpdate =>
        simp only [UserStore.runWithEnv, hph]
        cases hsend : UserStore.sendAddUpdate s c.userId c.currency c.amountToAdd c.ts false with
        | ok p =>
          obtain ⟨u, s2⟩ := p
          have hop : UserStore.opStep c s =
              ({ c with phase := .finished (.ok u) }, s2, some (.updateAdd false)) := by
            simp [UserStore.opStep, hph, hsend]
          rw [hop]
          intro hany
          exfalso
          have hfin := (UserStore.runWithEnv_finished rest
            { c with phase := .finished (.ok u) } s2 (.ok u) rfl).2
          rw [hfin] at hany
          simp [UserStore.healFailedEntry, hph] at hany
        | error derr =>
          cases derr with
          | condFail =>
            have hop : UserStore.opStep c s =
                ({ c with phase := .finished (.err .deletedDuringOperation) }, s,
                 some (.updateAdd false)) := by
              simp [UserStore.opStep, hph, hsend]
            rw [hop]
            intro hany
            exfalso
            have hfin := (UserStore.runWithEnv_finished rest
              { c with phase := .finished (.err .deletedDuringOperation) } s
              (.err .deletedDuringOperation) rfl).2
            rw [hfin] at hany
            simp [UserStore.healFailedEntry, hph] at hany
          | pathInvalid =>
            have hop : UserStore.opStep c s =
                ({ c with phase := .finished (.err .healRetryFailed) }, s,
                 some (.updateAdd false)) := by
              simp [UserStore.opStep, hph, hsend]
            rw [hop]
            intro hany
            exfalso
            have hfin := (UserStore.runWithEnv_finished rest
              { c with phase := .finished (.err .healRetryFailed) } s
              (.err .healRetryFailed) rfl).2
            rw [hfin] at hany
            simp [UserStore.healFailedEntry, hph] at hany

/-- C5: if the lazy-heal initialization write inside `updateCurrencyBalance`
fails its conditional check — under arbitrary interference with the store
between the atomic round-trips of the call — the whole operation terminates
with an error (surfaced as the record having been deleted during the
operation) and no store round-trip the call performed wrote anything: in
particular no partial credit was applied to any currency balance. -/
theorem UserStore.updateCurrencyBalance_healFail_no_partial_credit
    (moves : List (Option Store)) (uid currency : String) (amount : Rat)
    (ts : String) (s : Store)
    (hfail : (UserStore.runWithEnv moves (UserStore.initCfg uid currency amount ts) s
        ).2.2.any UserStore.healFailedEntry = true) :
    (UserStore.runWithEnv moves (UserStore.initCfg uid currency amount ts) s).1.phase
        = .finished (.err .deletedDuringOperation) ∧
    ∀ e ∈ (UserStore.runWithEnv moves (UserStore.initCfg uid currency amount ts) s).2.2,
      e.storeAfter = e.storeBefore :=
  UserStore.runWithEnv_healFail_cases moves _ s hfail

/-- Witness for C5: the record exists without the container, the first
conditional add fails, and the environment deletes the record right before
the heal write, which therefore fails; the call errors out having written
nothing. -/
theorem UserStore.updateCurrencyBalance_healFail_no_partial_credit_witness :
    (UserStore.runWithEnv [none, none, none, some [], none]
        (UserStore.initCfg "user1" "GOLD" 10 "t1")
        [{ userId := "user1", walletAddress := "0xabc", currencyMap := none,
           createdAt := some "t0", updatedAt := some "t0" }]
      ).2.2.any UserStore.healFailedEntry = true ∧
    ((UserStore.runWithEnv [none, none, none, some [], none]
        (UserStore.initCfg "user1" "GOLD" 10 "t1")
        [{ userId := "user1", walletAddress := "0xabc", currencyMap := none,
           createdAt := some "t0", updatedAt := some "t0" }]).1.phase
        = .finished (.err .deletedDuringOperation) ∧
     ∀ e ∈ (UserStore.runWithEnv [none, none, none, some [], none]
        (UserStore.initCfg "user1" "GOLD" 10 "t1")
        [{ userId := "user1", walletAddress := "0xabc", currencyMap := none,
           createdAt := some "t0", updatedAt := some "t0" }]).2.2,
       e.storeAfter = e.storeBefore) :=
  ⟨by decide,
   UserStore.updateCurrencyBalance_healFail_no_partial_credit
     [none, none, none, some [], none] "user1" "GOLD" 10 "t1"
     [{ userId := "user1", walletAddress := "0xabc", currencyMap := none,
        createdAt := some "t0", updatedAt := some "t0" }] (by decide)⟩

/-- C7: for a token address at which no contract code is deployed (empty
bytecode `0x`), a well-formed reward request (valid token address, positive
amount, existing user) receives a 400 client error whose message mentions
that no contract is deployed, and the transfer operation is never invoked. -/
theorem CryptoController.rewardTokens_noContract (ch : Chain) (s : Store)
    (t a uid : String) (q : Rat) (user : User)
    (ht : BlockchainService.isValidAddress t = true)
    (hq : jsParseFloat a = some q) (hqpos : 0 < q)
    (hu : getItem s uid = some user)
    (hti : t ≠ "") (hai : a ≠ "") (hui : uid ≠ "")
    (hcode : ch.getCode t = "0x") :
    (CryptoController.rewardTokens ch s (some t) (some a) (some uid)).code = 400 ∧
    strContains (CryptoController.rewardTokens ch s (some t) (some a) (some uid)).message
      "No contract deployed" = true ∧
    (CryptoController.rewardTokens ch s (some t) (some a) (some uid)).transferCalled
      = false := by
  have h1 : (t == "") = false := beq_eq_false_iff_ne.mpr hti
  have h2 : (a == "") = false := beq_eq_false_iff_ne.mpr hai
  have h3 : (uid == "") = false := beq_eq_false_iff_ne.mpr hui
  have hsuff : BlockchainService.hasAdminSufficientBalance ch t a =
      .error ("Failed to check admin balance: No contract deployed at address " ++ t) := by
    simp [BlockchainService.hasAdminSufficientBalance, hcode]
  have hneedle : strContains
      ("Failed to check admin balance: No contract deployed at address " ++ t)
      "No contract deployed" = true :=
    strContains_append_right _ t _ (by decide)
  have hrun : CryptoController.rewardTokens ch s (some t) (some a) (some uid) =
      { code := 400, statusStr := "error",
        message := "Invalid token contract at " ++ t ++ ": " ++
          ("Failed to check admin balance: No contract deployed at address " ++ t),
        transferCalled := false } := by
    simp [CryptoController.rewardTokens, h1, h2, h3, ht, hq, not_le.mpr hqpos, hu,
      hsuff, hneedle]
  rw [hrun]
  refine ⟨rfl, ?_, rfl⟩
  exact strContains_append_left _ _ _ (strContains_append_right _ t _ (by decide))

unseal Rat.mul Rat.add in
/-- Witness for C7: a concrete chain with empty bytecode at a valid token
address, a positive amount and an existing user. -/
theorem CryptoController.rewardTokens_noContract_witness :
    (BlockchainService.isValidAddress "0xaaaaaaaaaaaaaaaaaaaaaaaaaaaaaaaaaaaaaaaa" = true ∧
     jsParseFloat "5" = some 5 ∧ (0 : Rat) < 5 ∧
     getItem [{ userId := "user123", walletAddress := "0xbbbb", currencyMap := none,
                createdAt := some "t0", updatedAt := some "t0" }] "user123" =
       some { userId := "user123", walletAddress := "0xbbbb", currencyMap := none,
              createdAt := some "t0", updatedAt := some "t0" }) ∧
    ((CryptoController.rewardTokens
        { getCode := fun _ => "0x", balanceOfRes := fun _ => .ok 0,
          decimalsRes := fun _ => .error (), nameRes := fun _ => .error (),
          symbolRes := fun _ => .error (),
          transferRes := fun _ _ _ => .error (.other "boom") }
        [{ userId := "user123", walletAddress := "0xbbbb", currencyMap := none,
           createdAt := some "t0", updatedAt := some "t0" }]
        (some "0xaaaaaaaaaaaaaaaaaaaaaaaaaaaaaaaaaaaaaaaa") (some "5")
        (some "user123")).code = 400 ∧
     strContains (CryptoController.rewardTokens
        { getCode := fun _ => "0x", balanceOfRes := fun _ => .ok 0,
          decimalsRes := fun _ => .error (), nameRes := fun _ => .error (),
          symbolRes := fun _ => .error (),
          transferRes := fun _ _ _ => .error (.other "boom") }
        [{ userId := "user123", walletAddress := "0xbbbb", currencyMap := none,
           createdAt := some "t0", updatedAt := some "t0" }]
        (some "0xaaaaaaaaaaaaaaaaaaaaaaaaaaaaaaaaaaaaaaaa") (some "5")
        (some "user123")).message "No contract deployed" = true ∧
     (CryptoController.rewardTokens
        { getCode := fun _ => "0x", balanceOfRes := fun _ => .ok 0,
          decimalsRes := fun _ => .error (), nameRes := fun _ => .error (),
          symbolRes := fun _ => .error (),
          transferRes := fun _ _ _ => .error (.other "boom") }
        [{ userId := "user123", walletAddress := "0xbbbb", currencyMap := none,
           createdAt := some "t0", updatedAt := some "t0" }]
        (some "0xaaaaaaaaaaaaaaaaaaaaaaaaaaaaaaaaaaaaaaaa") (some "5")
        (some "user123")).transferCalled = false) :=
  ⟨⟨by decide, by decide, by decide, by decide⟩,
   CryptoController.rewardTokens_noContract
     { getCode := fun _ => "0x", balanceOfRes := fun _ => .ok 0,
       decimalsRes := fun _ => .error (), nameRes := fun _ => .error (),
       symbolRes := fun _ => .error (),
       transferRes := fun _ _ _ => .error (.other "boom") }
     [{ userId := "user123", walletAddress := "0xbbbb", currencyMap := none,
        createdAt := some "t0", updatedAt := some "t0" }]
     "0xaaaaaaaaaaaaaaaaaaaaaaaaaaaaaaaaaaaaaaaa" "5" "user123" 5
     { userId := "user123", walletAddress := "0xbbbb", currencyMap := none,
       createdAt := some "t0", updatedAt := some "t0" }
     (by decide) (by decide) (by decide) (by decide) (by decide) (by decide) (by decide)
     rfl⟩

theorem charToNat_ofNat_lt {n : Nat} (h : n < 55296) : (Char.ofNat n).toNat = n := by
  rw [Char.ofNat, dif_pos (Or.inl h)]
  rfl

theorem jsWhitespaceChar_toUpperChar (c : Char) :
    jsWhitespaceChar (jsToUpperChar c) = jsWhitespaceChar c := by
  unfold jsToUpperChar
  split
  · rename_i h
    simp only [Bool.and_eq_true, decide_eq_true_eq] at h
    obtain ⟨h1, h2⟩ := h
    have ht : (Char.ofNat (c.toNat - 32)).toNat = c.toNat - 32 :=
      charToNat_ofNat_lt (by omega)
    have hl : jsWhitespaceChar (Char.ofNat (c.toNat - 32)) = false := by
      simp only [jsWhitespaceChar, ht, Bool.or_eq_false_iff, beq_eq_false_iff_ne, ne_eq]
      omega
    have hr : jsWhitespaceChar c = false := by
      simp only [jsWhitespaceChar, Bool.or_eq_false_iff, beq_eq_false_iff_ne, ne_eq]
      omega
    rw [hl, hr]
  · rfl

theorem jsToUpper_ne_empty {s : String} (h : s ≠ "") : jsToUpper s ≠ "" := by
  cases s with
  | mk data =>
    intro hc
    apply h
    have hd : data.map jsToUpperChar = [] := congrArg String.data hc
    have hnil : data = [] := by simpa using hd
    rw [hnil]

theorem dropWhile_head_false (p : Char → Bool) (l : List Char) (c : Char) (rest : List Char)
    (h : l.dropWhile p = c :: rest) : p c = false := by
  induction l with
  | nil => cases h
  | cons a t ih =>
    rw [List.dropWhile_cons] at h
    by_cases hp : p a = true
    · rw [if_pos hp] at h
      exact ih h
    · rw [if_neg hp] at h
      injection h with h1 _
      subst h1
      simpa using hp

theorem jsTrimList_eq_nil_all (l : List Char) (h : jsTrimList l = []) :
    ∀ x ∈ l, jsWhitespaceChar x = true := by
  unfold jsTrimList at h
  have h2 : (l.dropWhile jsWhitespaceChar).reverse.dropWhile jsWhitespaceChar = [] := by
    simpa using h
  have h3 := List.dropWhile_eq_nil_iff.mp h2
  intro x hx
  have hx2 : x ∈ l.takeWhile jsWhitespaceChar ++ l.dropWhile jsWhitespaceChar := by
    rw [List.takeWhile_append_dropWhile]
    exact hx
  rcases List.mem_append.mp hx2 with hx1 | hx1
  · exact List.mem_takeWhile_imp hx1
  · exact h3 x (List.mem_reverse.mpr hx1)

theorem exists_nonws_of_jsTrimList_ne_nil (l : List Char) (h : jsTrimList l ≠ []) :
    ∃ c ∈ jsTrimList l, jsWhitespaceChar c = false := by
  unfold jsTrimList at h ⊢
  cases hBc : (l.dropWhile jsWhitespaceChar).reverse.dropWhile jsWhitespaceChar with
  | nil =>
    exfalso
    apply h
    rw [hBc]
    rfl
  | cons c rest =>
    refine ⟨c, ?_, dropWhile_head_false _ _ _ _ hBc⟩
    simp


theorem jsTrim_toUpper_jsTrim_ne {s : String} (h : jsTrim s ≠ "") :
    jsTrim (jsToUpper (jsTrim s)) ≠ "" := by
  intro hc
  have hdata : jsTrimList ((jsTrimList s.data).map jsToUpperChar) = [] := by
    have hd := congrArg String.data hc
    simpa [jsTrim, jsToUpper] using hd
  have hne : jsTrimList s.data ≠ [] := by
    intro h0
    apply h
    show (⟨jsTrimList s.data⟩ : String) = ""
    rw [h0]
  obtain ⟨c, hcmem, hcws⟩ := exists_nonws_of_jsTrimList_ne_nil s.data hne
  have hall := jsTrimList_eq_nil_all _ hdata (jsToUpperChar c)
    (List.mem_map_of_mem _ hcmem)
  rw [jsWhitespaceChar_toUpperChar] at hall
  rw [hall] at hcws
  cases hcws


/-- C8: the off-chain reward endpoint normalizes the currency symbol by
trimming and upper-casing before the balance update: two successive credits
of 100 then 50 through any two case variants of the same symbol, applied to
a fresh user without the container, both succeed and land on the single
normalized key, whose final balance is 150 — not on two distinct keys. -/
theorem AdminController.rewardCurrency_normalizes
    (uid w s1 s2 ts0 ts1 ts2 : String)
    (hui : uid ≠ "") (h1 : jsTrim s1 ≠ "")
    (heq : jsToUpper (jsTrim s1) = jsToUpper (jsTrim s2)) :
    (AdminController.rewardCurrency
        [{ userId := uid, walletAddress := w, currencyMap := none,
           createdAt := some ts0, updatedAt := some ts0 }]
        (some uid) (some s1) (some (.num 100)) ts1).1.code = 200 ∧
    (AdminController.rewardCurrency
        (AdminController.rewardCurrency
          [{ userId := uid, walletAddress := w, currencyMap := none,
             createdAt := some ts0, updatedAt := some ts0 }]
          (some uid) (some s1) (some (.num 100)) ts1).2.1
        (some uid) (some s2) (some (.num 50)) ts2).1.code = 200 ∧
    (getItem (AdminController.rewardCurrency
        (AdminController.rewardCurrency
          [{ userId := uid, walletAddress := w, currencyMap := none,
             createdAt := some ts0, updatedAt := some ts0 }]
          (some uid) (some s1) (some (.num 100)) ts1).2.1
        (some uid) (some s2) (some (.num 50)) ts2).2.1 uid).map User.currencyMap
      = some (some [(jsToUpper (jsTrim s1), (150 : Rat))]) := by
  have hKne : jsToUpper (jsTrim s1) ≠ "" := jsToUpper_ne_empty h1
  have h2 : jsTrim s2 ≠ "" := by
    intro h0
    apply hKne
    rw [heq, h0]
    rfl
  have hs1 : s1 ≠ "" := fun h0 => h1 (by rw [h0]; rfl)
  have hs2 : s2 ≠ "" := fun h0 => h2 (by rw [h0]; rfl)
  have hcurK : jsTrim (jsToUpper (jsTrim s1)) ≠ "" := jsTrim_toUpper_jsTrim_ne h1
  have hb1 : (uid == "") = false := beq_eq_false_iff_ne.mpr hui
  have hb2 : (s1 == "") = false := beq_eq_false_iff_ne.mpr hs1
  have hb3 : (jsTrim s1 == "") = false := beq_eq_false_iff_ne.mpr h1
  have hb4 : (s2 == "") = false := beq_eq_false_iff_ne.mpr hs2
  have hb5 : (jsTrim s2 == "") = false := beq_eq_false_iff_ne.mpr h2
  have hver : jsToUpper (jsTrim s2) = jsToUpper (jsTrim s1) := heq.symm
  have hupd1 := (UserStore.updateCurrencyBalance_run_spec
      [{ userId := uid, walletAddress := w, currencyMap := none,
         createdAt := some ts0, updatedAt := some ts0 }]
      uid (jsToUpper (jsTrim s1)) 100 ts1 (by decide) hcurK).2.2
    { userId := uid, walletAddress := w, currencyMap := none,
      createdAt := some ts0, updatedAt := some ts0 }
    (by simp [getItem, List.find?]) rfl
  simp only [putItem, mapAdd, beq_self_eq_true, if_true] at hupd1
  have hrun1 : AdminController.rewardCurrency
      [{ userId := uid, walletAddress := w, currencyMap := none,
         createdAt := some ts0, updatedAt := some ts0 }]
      (some uid) (some s1) (some (.num 100)) ts1 =
      ({ code := 200, statusStr := "success",
         message := some ("Successfully rewarded " ++ jsToUpper (jsTrim s1) ++
           " to user " ++ uid ++ ".") },
       [{ userId := uid, walletAddress := w,
          currencyMap := some [(jsToUpper (jsTrim s1), (100 : Rat))],
          createdAt := some ts0, updatedAt := some ts1 }],
       true) := by
    simp [AdminController.rewardCurrency, hb1, hb2, hb3, isNumeric, jsNumber,
      (show ¬ ((100 : Rat) ≤ 0) by decide), hupd1]
  have hupd2 := (UserStore.updateCurrencyBalance_run_spec
      [{ userId := uid, walletAddress := w,
         currencyMap := some [(jsToUpper (jsTrim s1), (100 : Rat))],
         createdAt := some ts0, updatedAt := some ts1 }]
      uid (jsToUpper (jsTrim s1)) 50 ts2 (by decide) hcurK).2.1
    { userId := uid, walletAddress := w,
      currencyMap := some [(jsToUpper (jsTrim s1), (100 : Rat))],
      createdAt := some ts0, updatedAt := some ts1 }
    [(jsToUpper (jsTrim s1), (100 : Rat))]
    (by simp [getItem, List.find?]) rfl
  simp only [putItem, mapAdd, beq_self_eq_true, if_true,
    (show (100 : Rat) + 50 = 150 by norm_num)] at hupd2
  have hrun2 : AdminController.rewardCurrency
      [{ userId := uid, walletAddress := w,
         currencyMap := some [(jsToUpper (jsTrim s1), (100 : Rat))],
         createdAt := some ts0, updatedAt := some ts1 }]
      (some uid) (some s2) (some (.num 50)) ts2 =
      ({ code := 200, statusStr := "success",
         message := some ("Successfully rewarded " ++ jsToUpper (jsTrim s1) ++
           " to user " ++ uid ++ ".") },
       [{ userId := uid, walletAddress := w,
          currencyMap := some [(jsToUpper (jsTrim s1), (150 : Rat))],
          createdAt := some ts0, updatedAt := some ts2 }],
       true) := by
    simp [AdminController.rewardCurrency, hb1, hb4, hb5, isNumeric, jsNumber,
      (show ¬ ((50 : Rat) ≤ 0) by decide), hver, hupd2]
  rw [hrun1]
  refine ⟨rfl, ?_, ?_⟩
  · show (AdminController.rewardCurrency
        [{ userId := uid, walletAddress := w,
           currencyMap := some [(jsToUpper (jsTrim s1), (100 : Rat))],
           createdAt := some ts0, updatedAt := some ts1 }]
        (some uid) (some s2) (some (.num 50)) ts2).1.code = 200
    rw [hrun2]
  · show (getItem (AdminController.rewardCurrency
        [{ userId := uid, walletAddress := w,
           currencyMap := some [(jsToUpper (jsTrim s1), (100 : Rat))],
           createdAt := some ts0, updatedAt := some ts1 }]
        (some uid) (some s2) (some (.num 50)) ts2).2.1 uid).map User.currencyMap
      = some (some [(jsToUpper (jsTrim s1), (150 : Rat))])
    rw [hrun2]
    simp [getItem, List.find?]

/-- Witness for C8: `points` then `POINTS` to `user123` yields a single
`POINTS` entry of 150. -/
theorem AdminController.rewardCurrency_normalizes_witness :
    ("user123" ≠ "" ∧ jsTrim "points" ≠ "" ∧
     jsToUpper (jsTrim "points") = jsToUpper (jsTrim "POINTS")) ∧
    ((AdminController.rewardCurrency
        [{ userId := "user123", walletAddress := "0xw", currencyMap := none,
           createdAt := some "t0", updatedAt := some "t0" }]
        (some "user123") (some "points") (some (.num 100)) "t1").1.code = 200 ∧
     (AdminController.rewardCurrency
        (AdminController.rewardCurrency
          [{ userId := "user123", walletAddress := "0xw", currencyMap := none,
             createdAt := some "t0", updatedAt := some "t0" }]
          (some "user123") (some "points") (some (.num 100)) "t1").2.1
        (some "user123") (some "POINTS") (some (.num 50)) "t2").1.code = 200 ∧
     (getItem (AdminController.rewardCurrency
        (AdminController.rewardCurrency
          [{ userId := "user123", walletAddress := "0xw", currencyMap := none,
             createdAt := some "t0", updatedAt := some "t0" }]
          (some "user123") (some "points") (some (.num 100)) "t1").2.1
        (some "user123") (some "POINTS") (some (.num 50)) "t2").2.1 "user123"
       ).map User.currencyMap
      = some (some [(jsToUpper (jsTrim "points"), (150 : Rat))])) :=
  ⟨⟨by decide, by decide, by decide⟩,
   AdminController.rewardCurrency_normalizes "user123" "0xw" "points" "POINTS"
     "t0" "t1" "t2" (by decide) (by decide) (by decide)⟩

/-- Coherence of the two embeddings of `updateCurrencyBalance`: the direct
sequential transcription equals the run of the atomic step machine used for
the interleaving results. -/
theorem UserStore.updateCurrencyBalance_eq_runSteps (s : Store) (uid currency : String)
    (amount : Rat) (ts : String) :
    UserStore.updateCurrencyBalance s uid currency amount ts =
      (match (UserStore.runSteps 6 (UserStore.initCfg uid currency amount ts) s).1.phase with
       | .finished out =>
         (out, (UserStore.runSteps 6 (UserStore.initCfg uid currency amount ts) s).2.1,
          (UserStore.runSteps 6 (UserStore.initCfg uid currency amount ts) s).2.2)
       | _ =>
         (.err .storeError,
          (UserStore.runSteps 6 (UserStore.initCfg uid currency amount ts) s).2.1,
          (UserStore.runSteps 6 (UserStore.initCfg uid currency amount ts) s).2.2)) := by
  by_cases h1 : amount ≤ 0
  · simp [UserStore.updateCurrencyBalance, UserStore.runSteps, UserStore.opStep,
      UserStore.initCfg, h1]
  · by_cases h2 : jsTrim currency = ""
    · simp [UserStore.updateCurrencyBalance, UserStore.runSteps, UserStore.opStep,
        UserStore.initCfg, h1, h2]
    · cases hsend : UserStore.sendAddUpdate s uid currency amount ts true with
      | ok p =>
        simp [UserStore.updateCurrencyBalance, UserStore.runSteps, UserStore.opStep,
          UserStore.initCfg, h1, h2, hsend]
      | error derr =>
        cases derr with
        | pathInvalid =>
          simp [UserStore.updateCurrencyBalance, UserStore.runSteps, UserStore.opStep,
            UserStore.initCfg, h1, h2, hsend]
        | condFail =>
          cases hget : getItem s uid with
          | none =>
            simp [UserStore.updateCurrencyBalance, UserStore.runSteps, UserStore.opStep,
              UserStore.initCfg, h1, h2, hsend, hget]
          | some u =>
            cases hinit : UserStore.sendInitMap s uid ts with
            | error derr2 =>
              simp [UserStore.updateCurrencyBalance, UserStore.runSteps, UserStore.opStep,
                UserStore.initCfg, h1, h2, hsend, hget, hinit]
            | ok s2 =>
              cases hretry : UserStore.sendAddUpdate s2 uid currency amount ts false with
              | ok p2 =>
                simp [UserStore.updateCurrencyBalance, UserStore.runSteps, UserStore.opStep,
                  UserStore.initCfg, h1, h2, hsend, hget, hinit, hretry]
              | error derr2 =>
                cases derr2 with
                | condFail =>
                  simp [UserStore.updateCurrencyBalance, UserStore.runSteps,
                    UserStore.opStep, UserStore.initCfg, h1, h2, hsend, hget, hinit, hretry]
                | pathInvalid =>
                  simp [UserStore.updateCurrencyBalance, UserStore.runSteps,
                    UserStore.opStep, UserStore.initCfg, h1, h2, hsend, hget, hinit, hretry]

set_option maxRecDepth 10000 in
/-- Keccak-256 of the empty message, against the published test vector. -/
example : keccak256 [] =
    [0xc5, 0xd2, 0x46, 0x01, 0x86, 0xf7, 0x23, 0x3c, 0x92, 0x7e, 0x7d, 0xb2,
     0xdc, 0xc7, 0x03, 0xc0, 0xe5, 0x00, 0xb6, 0x53, 0xca, 0x82, 0x27, 0x3b,
     0x7b, 0xfa, 0xd8, 0x04, 0x5d, 0x85, 0xa4, 0x70] := by
  decide

set_option maxRecDepth 10000 in
/-- Keccak-256 of `abc`, against the published test vector. -/
example : keccak256 [0x61, 0x62, 0x63] =
    [0x4e, 0x03, 0x65, 0x7a, 0xea, 0x45, 0xa9, 0x4f, 0xc7, 0xd4, 0x7b, 0xa8,
     0x26, 0xc8, 0xd6, 0x67, 0xc0, 0xd1, 0xe6, 0xe3, 0x3a, 0x64, 0xa0, 0x36,
     0xec, 0x44, 0xf5, 0x8f, 0xa1, 0x2d, 0x6c, 0x45] := by
  decide

set_option maxRecDepth 10000 in
/-- EIP-55 checksum of the canonical example address of the EIP. -/
example : getChecksumChars "0x5aaeb6053f3e94c9b9a09f33669435e7ef1beaed".data
    = "0x5aAeb6053F3E94C9b9A09f33669435E7Ef1BeAed".data := by
  decide

set_option maxRecDepth 10000 in
/-- The ethers validator accepts a correctly EIP-55-checksummed mixed-case
address and rejects a mixed-case variant with a broken checksum. -/
example : BlockchainService.isValidAddress "0x5aAeb6053F3E94C9b9A09f33669435E7Ef1BeAed" = true
    ∧ BlockchainService.isValidAddress "0x5AAeb6053F3E94C9b9A09f33669435E7Ef1BeAed" = false := by
  constructor
  · decide
  · decide
